import Mathlib

/-!
Verification of the MortalNet chat/matchmaking server
(src/server/python/mortalnet.py) against its natural-language specification.

Shallow embedding conventions:
* Python dicts become ordered association lists (CPython dicts preserve
  insertion order, which the server relies on for peer listing and broadcast).
* The monotonic clock and token amounts (Python floats used only through
  `+`, `-`, `*`, `min` and comparisons) become rationals.
* Network writes become an ordered list of (recipient id, line) events.
* The unbounded `while True` allocation loop of `_resolve_nick` runs on
  explicit fuel; the fuel bound is proved sufficient below, which is the
  termination argument of the spec.
-/

/- Batteries marks rational arithmetic irreducible; witness evaluation by
`decide` needs it unfolded. -/
attribute [local semireducible] Rat.add Rat.sub Rat.mul

/-! ### Ordered association lists (Python dict model) -/

def alookup {κ β : Type} [DecidableEq κ] : List (κ × β) → κ → Option β
  | [], _ => none
  | (k, v) :: t, q => if k = q then some v else alookup t q

/-- `del d[k]` / `d.pop(k, None)`: with unique keys this is exactly removal
of the one binding; we model it as removal of every binding for `k`. -/
def aerase {κ β : Type} [DecidableEq κ] : List (κ × β) → κ → List (κ × β)
  | [], _ => []
  | (k, w) :: t, q => if k = q then aerase t q else (k, w) :: aerase t q

/-- `d[k] = v`: update in place when `k` is present (keeping its slot),
append at the end otherwise. -/
def ainsert {κ β : Type} [DecidableEq κ] : List (κ × β) → κ → β → List (κ × β)
  | [], q, v => [(q, v)]
  | (k, w) :: t, q, v => if k = q then (k, v) :: t else (k, w) :: ainsert t q v

theorem alookup_ainsert {κ β : Type} [DecidableEq κ] (l : List (κ × β)) (k : κ) (v : β) (q : κ) :
    alookup (ainsert l k v) q = if q = k then some v else alookup l q := by
  induction l with
  | nil =>
    simp only [ainsert, alookup]
    by_cases hkq : k = q
    · subst hkq; simp
    · rw [if_neg hkq, if_neg (fun h => hkq h.symm)]
  | cons p t ih =>
    obtain ⟨k', w⟩ := p
    simp only [ainsert]
    by_cases hk : k' = k
    · subst hk
      rw [if_pos rfl]
      simp only [alookup]
      by_cases hq : k' = q
      · subst hq; simp
      · rw [if_neg hq, if_neg hq, if_neg (fun h => hq h.symm)]
    · rw [if_neg hk]
      simp only [alookup]
      by_cases hq : k' = q
      · subst hq
        rw [if_pos rfl, if_pos rfl, if_neg (fun h : k' = k => hk h)]
      · rw [if_neg hq, if_neg hq, ih]

theorem alookup_aerase {κ β : Type} [DecidableEq κ] (l : List (κ × β)) (k q : κ) :
    alookup (aerase l k) q = if q = k then none else alookup l q := by
  induction l with
  | nil => by_cases h : q = k <;> simp [aerase, alookup, h]
  | cons p t ih =>
    obtain ⟨k', w⟩ := p
    simp only [aerase]
    by_cases hk : k' = k
    · subst hk
      rw [if_pos rfl, ih]
      by_cases hq : q = k'
      · simp [hq]
      · rw [if_neg hq, if_neg hq]
        simp only [alookup]
        rw [if_neg (fun h : k' = q => hq h.symm)]
    · rw [if_neg hk]
      simp only [alookup]
      by_cases hq : k' = q
      · subst hq
        rw [if_pos rfl, if_neg (fun h : k' = k => hk h), if_pos rfl]
      · rw [if_neg hq, if_neg hq, ih]

theorem alookup_some_mem {κ β : Type} [DecidableEq κ] {l : List (κ × β)} {k : κ} {v : β}
    (h : alookup l k = some v) : (k, v) ∈ l := by
  induction l with
  | nil => simp [alookup] at h
  | cons p t ih =>
    obtain ⟨k', w⟩ := p
    simp only [alookup] at h
    by_cases hk : k' = k
    · subst hk
      rw [if_pos rfl] at h
      cases h
      exact List.mem_cons_self _ _
    · rw [if_neg hk] at h
      exact List.mem_cons_of_mem _ (ih h)

theorem alookup_some_key_mem {κ β : Type} [DecidableEq κ] {l : List (κ × β)} {k : κ} {v : β}
    (h : alookup l k = some v) : k ∈ l.map Prod.fst := by
  exact List.mem_map.2 ⟨(k, v), alookup_some_mem h, rfl⟩

/-! ### Decimal digits (`f"{suffix}"` on a nonnegative int) -/

def digitChar : Nat → Char
  | 0 => '0' | 1 => '1' | 2 => '2' | 3 => '3' | 4 => '4'
  | 5 => '5' | 6 => '6' | 7 => '7' | 8 => '8' | _ => '9'

def natDigitsGo : Nat → Nat → List Char
  | 0, _ => []
  | Nat.succ fuel, n =>
    if n < 10 then [digitChar n]
    else natDigitsGo fuel (n / 10) ++ [digitChar (n % 10)]

def natDigits (n : Nat) : List Char := natDigitsGo (n + 1) n

theorem natDigitsGo_fuel_eq : ∀ fuel1 fuel2 n, n < fuel1 → n < fuel2 →
    natDigitsGo fuel1 n = natDigitsGo fuel2 n := by
  intro fuel1
  induction fuel1 with
  | zero => intro fuel2 n h1; omega
  | succ f1 ih =>
    intro fuel2 n h1 h2
    cases fuel2 with
    | zero => omega
    | succ f2 =>
      simp only [natDigitsGo]
      by_cases h : n < 10
      · simp [h]
      · have hn : 0 < n := by omega
        have hd : n / 10 < n := Nat.div_lt_self hn (by norm_num)
        rw [if_neg h, if_neg h, ih f2 (n / 10) (by omega) (by omega)]

/-- The recurrence the Python `while` digit-printing satisfies. -/
theorem natDigits_eq (n : Nat) :
    natDigits n = if n < 10 then [digitChar n]
      else natDigits (n / 10) ++ [digitChar (n % 10)] := by
  have hstep : natDigitsGo (n + 1) n
      = if n < 10 then [digitChar n] else natDigitsGo n (n / 10) ++ [digitChar (n % 10)] := rfl
  by_cases h : n < 10
  · simp only [natDigits, hstep, if_pos h]
  · have hn : 0 < n := by omega
    have hd : n / 10 < n := Nat.div_lt_self hn (by norm_num)
    simp only [natDigits, hstep, if_neg h]
    rw [natDigitsGo_fuel_eq n (n / 10 + 1) (n / 10) (by omega) (by omega)]

def digitVal (c : Char) : Nat := c.toNat - 48

def decDigits (l : List Char) : Nat := l.foldl (fun a c => a * 10 + digitVal c) 0

theorem decDigits_step (l : List Char) (a : Nat) (c : Char) :
    (l ++ [c]).foldl (fun a c => a * 10 + digitVal c) a
      = l.foldl (fun a c => a * 10 + digitVal c) a * 10 + digitVal c := by
  simp [List.foldl_append]

theorem digitVal_digitChar : ∀ d, d < 10 → digitVal (digitChar d) = d := by decide

theorem decDigits_natDigits (n : Nat) : decDigits (natDigits n) = n := by
  induction n using Nat.strong_induction_on with
  | _ n ih =>
    rw [natDigits_eq]
    by_cases h : n < 10
    · rw [if_pos h]
      simp [decDigits, digitVal_digitChar n h]
    · rw [if_neg h]
      have hn : 0 < n := Nat.lt_of_lt_of_le (by norm_num) (Nat.le_of_not_lt h)
      have hd : n / 10 < n := Nat.div_lt_self hn (by norm_num)
      have := ih (n / 10) hd
      simp only [decDigits] at this ⊢
      rw [decDigits_step, this, digitVal_digitChar _ (Nat.mod_lt _ (by norm_num))]
      omega

theorem natDigits_inj {m n : Nat} (h : natDigits m = natDigits n) : m = n := by
  have hm := decDigits_natDigits m
  have hn := decDigits_natDigits n
  rw [← hm, ← hn, h]

theorem isDigit_digitChar : ∀ d, (digitChar d).isDigit = true := by
  intro d
  match d with
  | 0 | 1 | 2 | 3 | 4 | 5 | 6 | 7 | 8 => decide
  | n + 9 =>
    have h : digitChar (n + 9) = '9' := rfl
    rw [h]; decide

theorem natDigits_all_digit (n : Nat) : ∀ c ∈ natDigits n, c.isDigit = true := by
  induction n using Nat.strong_induction_on with
  | _ n ih =>
    rw [natDigits_eq]
    by_cases h : n < 10
    · rw [if_pos h]
      intro c hc
      simp only [List.mem_singleton] at hc
      subst hc
      exact isDigit_digitChar n
    · rw [if_neg h]
      intro c hc
      rcases List.mem_append.1 hc with h1 | h1
      · have hn : 0 < n := Nat.lt_of_lt_of_le (by norm_num) (Nat.le_of_not_lt h)
        exact ih (n / 10) (Nat.div_lt_self hn (by norm_num)) c h1
      · simp only [List.mem_singleton] at h1
        subst h1
        exact isDigit_digitChar _

/-! ### Nickname strings (`_resolve_nick` helpers, mortalnet.py lines 554-582) -/

/-- The character class of `NICK_REGEX` / `re.sub(r'[^a-zA-Z0-9_\-]', ...)`
(ASCII letters, digits, underscore, hyphen). -/
def isNickChar (c : Char) : Bool := c.isAlpha || c.isDigit || c = '_' || c = '-'

/-- Python string slicing `s[:n]` (by code points). -/
def strTake (s : String) (n : Nat) : String := String.mk (s.data.take n)

/-- Line 557: `re.sub(r'[^a-zA-Z0-9_\-]', '', requested)[:20] or "Player"`. -/
def cleanNick (requested : String) : String :=
  let filtered := String.mk ((requested.data.filter isNickChar).take 20)
  if filtered = "" then "Player" else filtered

/-- Line 581: `f"{base[:17]}_{suffix}"` (the caller passes `base17 = base[:17]`). -/
def candStr (base17 : String) (k : Nat) : String :=
  base17 ++ "_" ++ String.mk (natDigits k)

theorem candStr_inj (b : String) : Function.Injective (candStr b) := by
  intro j k h
  apply natDigits_inj
  have h1 : (candStr b j).data = (candStr b k).data := congrArg String.data h
  simp only [candStr, String.data_append] at h1
  exact List.append_cancel_left h1

/-! ### Token bucket (mortalnet.py lines 95-109) -/

structure TokenBucket where
  rate : ℚ
  burst : ℚ
  tokens : ℚ
  last : ℚ
deriving DecidableEq, Repr

/-- `TokenBucket.consume` (lines 102-109): refill
`tokens ← min(burst, tokens + (now − last) * rate)`, set `last ← now`,
then spend one whole token if possible. -/
def TokenBucket.consume (b : TokenBucket) (now : ℚ) : TokenBucket × Bool :=
  let t := min b.burst (b.tokens + (now - b.last) * b.rate)
  if 1 ≤ t then ({ b with tokens := t - 1, last := now }, true)
  else ({ b with tokens := t, last := now }, false)

/-- Run a sequence of `consume()` calls at the given monotonic times, counting
the calls that return `True`. -/
def TokenBucket.simulate (b : TokenBucket) : List ℚ → TokenBucket × Nat
  | [] => (b, 0)
  | t :: ts =>
    (((b.consume t).1.simulate ts).1,
      (if (b.consume t).2 then 1 else 0) + ((b.consume t).1.simulate ts).2)

theorem TokenBucket.consume_rate (b : TokenBucket) (now : ℚ) :
    (b.consume now).1.rate = b.rate ∧ (b.consume now).1.burst = b.burst ∧
      (b.consume now).1.last = now := by
  simp only [consume]
  split <;> simp

theorem TokenBucket.simulate_fields (b : TokenBucket) (ts : List ℚ) :
    (b.simulate ts).1.rate = b.rate ∧ (b.simulate ts).1.burst = b.burst ∧
      (b.simulate ts).1.last = ts.getLastD b.last := by
  induction ts generalizing b with
  | nil => simp [simulate]
  | cons t ts ih =>
    simp only [simulate, List.getLastD_cons]
    have h := ih (b.consume t).1
    have hc := b.consume_rate t
    exact ⟨by rw [h.1, hc.1], by rw [h.2.1, hc.2.1], by rw [h.2.2, hc.2.2]⟩

theorem TokenBucket.consume_bounds (b : TokenBucket) (now : ℚ)
    (hr : 0 ≤ b.rate) (hb : 0 ≤ b.burst) (h0 : 0 ≤ b.tokens) (hl : b.last ≤ now) :
    0 ≤ (b.consume now).1.tokens ∧ (b.consume now).1.tokens ≤ b.burst := by
  simp only [consume]
  have hre : 0 ≤ (now - b.last) * b.rate := mul_nonneg (by linarith) hr
  have hmin : min b.burst (b.tokens + (now - b.last) * b.rate) ≤ b.burst := min_le_left _ _
  have hmin0 : 0 ≤ min b.burst (b.tokens + (now - b.last) * b.rate) :=
    le_min hb (by linarith)
  split
  case isTrue h => exact ⟨by dsimp only; linarith, by dsimp only; linarith⟩
  case isFalse h => exact ⟨by dsimp only; linarith, by dsimp only; linarith⟩

/-- From a state with `0 ≤ tokens ≤ burst`, a monotone call sequence keeps
`tokens` in `[0, burst]`. -/
theorem TokenBucket.simulate_bounds (b : TokenBucket) (ts : List ℚ)
    (hr : 0 ≤ b.rate) (hb : 0 ≤ b.burst) (h0 : 0 ≤ b.tokens) (h1 : b.tokens ≤ b.burst)
    (hc : List.Chain (· ≤ ·) b.last ts) :
    0 ≤ (b.simulate ts).1.tokens ∧ (b.simulate ts).1.tokens ≤ b.burst := by
  induction ts generalizing b with
  | nil => simp only [simulate]; exact ⟨h0, h1⟩
  | cons t ts ih =>
    rw [List.chain_cons] at hc
    have hcb := b.consume_bounds t hr hb h0 hc.1
    have hfld := b.consume_rate t
    have := ih (b.consume t).1 (by rw [hfld.1]; exact hr)
      (by rw [hfld.2.1]; exact hb) hcb.1 (by rw [hfld.2.1]; exact hcb.2)
      (by rw [hfld.2.2]; exact hc.2)
    rw [hfld.2.1] at this
    simpa [simulate] using this

/-- Every accepted call spends one whole token and refills add at most `rate`
per unit of elapsed time, so the accepted count is bounded by
`tokens₀ + rate · (final last − last₀)`. -/
theorem TokenBucket.simulate_count (b : TokenBucket) (ts : List ℚ)
    (hr : 0 ≤ b.rate) (hb : 0 ≤ b.burst) (h0 : 0 ≤ b.tokens)
    (hc : List.Chain (· ≤ ·) b.last ts) :
    ((b.simulate ts).2 : ℚ) ≤ b.tokens + b.rate * (ts.getLastD b.last - b.last) := by
  induction ts generalizing b with
  | nil => simp [simulate]; linarith
  | cons t ts ih =>
    rw [List.chain_cons] at hc
    have hfld := b.consume_rate t
    have hcb := b.consume_bounds t hr hb h0 hc.1
    have hih := ih (b.consume t).1 (by rw [hfld.1]; exact hr)
      (by rw [hfld.2.1]; exact hb) hcb.1 (by rw [hfld.2.2]; exact hc.2)
    rw [hfld.1, hfld.2.2] at hih
    have hle : (b.consume t).1.tokens + (if (b.consume t).2 then (1:ℚ) else 0)
        ≤ b.tokens + b.rate * (t - b.last) := by
      simp only [consume]
      have hmin : min b.burst (b.tokens + (t - b.last) * b.rate)
          ≤ b.tokens + (t - b.last) * b.rate := min_le_right _ _
      have hcomm : (t - b.last) * b.rate = b.rate * (t - b.last) := by ring
      split
      case isTrue h => dsimp only; rw [if_pos rfl]; linarith
      case isFalse h => dsimp only; rw [if_neg (by simp : ¬ (false = true))]; linarith
    have hring : b.rate * (t - b.last) + b.rate * (ts.getLastD t - t)
        = b.rate * (ts.getLastD t - b.last) := by ring
    simp only [simulate, List.getLastD_cons]
    split
    case isTrue h =>
      rw [if_pos h] at hle
      push_cast
      linarith
    case isFalse h =>
      rw [if_neg h] at hle
      push_cast
      linarith

/-- Window bound: from any state satisfying the invariant, the number of
accepted calls among calls confined to a window of length `w` is at most
`burst + rate · w`. -/
theorem TokenBucket.simulate_window (b : TokenBucket) (ts : List ℚ) (w : ℚ)
    (hr : 0 ≤ b.rate) (hb : 0 ≤ b.burst) (h0 : 0 ≤ b.tokens) (h1 : b.tokens ≤ b.burst)
    (hc : List.Chain (· ≤ ·) b.last ts) (hw0 : 0 ≤ w)
    (hw : ts.getLastD b.last - ts.headD b.last ≤ w) :
    ((b.simulate ts).2 : ℚ) ≤ b.burst + b.rate * w := by
  cases ts with
  | nil =>
    simp only [simulate]
    have : 0 ≤ b.rate * w := mul_nonneg hr hw0
    push_cast
    linarith
  | cons t ts =>
    rw [List.chain_cons] at hc
    have hfld := b.consume_rate t
    have hcb := b.consume_bounds t hr hb h0 hc.1
    have hcount := TokenBucket.simulate_count (b.consume t).1 ts
      (by rw [hfld.1]; exact hr) (by rw [hfld.2.1]; exact hb) hcb.1
      (by rw [hfld.2.2]; exact hc.2)
    rw [hfld.1, hfld.2.2] at hcount
    simp only [List.getLastD_cons, List.headD_cons] at hw
    have htw : (b.consume t).1.tokens + (if (b.consume t).2 then (1:ℚ) else 0) ≤ b.burst := by
      simp only [consume]
      have hmin : min b.burst (b.tokens + (t - b.last) * b.rate) ≤ b.burst := min_le_left _ _
      split
      case isTrue h => dsimp only; rw [if_pos rfl]; linarith
      case isFalse h => dsimp only; rw [if_neg (by simp : ¬ (false = true))]; linarith
    have hmul : b.rate * (ts.getLastD t - t) ≤ b.rate * w := by
      apply mul_le_mul_of_nonneg_left _ hr
      linarith
    simp only [simulate, List.getLastD_cons]
    split
    case isTrue h =>
      rw [if_pos h] at htw
      push_cast
      linarith
    case isFalse h =>
      rw [if_neg h] at htw
      push_cast
      linarith

/-! ### Nick resolution (`MortalNetServer._resolve_nick`, lines 554-582) -/

abbrev NickMap := List (String × Nat)
abbrev ResMap := List (String × (String × ℚ))
abbrev Out := List (Nat × String)

/-- Lines 561-562: `active_owner = self._nicks.get(candidate)` is a blocker
when present and different from `exclude_id`. -/
def activeBlocked (nicks : NickMap) (exclude : Option Nat) (c : String) : Bool :=
  match alookup nicks c with
  | some owner => decide (some owner ≠ exclude)
  | none => false

/-- The loop body of `_resolve_nick` (lines 560-582), on explicit fuel.
Returns the chosen nickname together with the reservation map as mutated by
the loop (the expired-reservation branch pops the entry in place). -/
def resolveGo (nicks : NickMap) (reserved : ResMap) (now : ℚ) (exclude : Option Nat)
    (clientIp base17 : String) : Nat → Nat → String → Option (String × ResMap)
  | 0, _, _ => none
  | Nat.succ fuel, suffix, candidate =>
    if activeBlocked nicks exclude candidate then
      resolveGo nicks reserved now exclude clientIp base17 fuel (suffix + 1) (candStr base17 suffix)
    else
      match alookup reserved candidate with
      | some (resIp, expiry) =>
        if now < expiry then
          if clientIp ≠ "" ∧ clientIp ≠ resIp then
            resolveGo nicks reserved now exclude clientIp base17 fuel (suffix + 1)
              (candStr base17 suffix)
          else some (candidate, reserved)
        else some (candidate, aerase reserved candidate)
      | none => some (candidate, reserved)

/-- Fuel that is always sufficient (proved in `resolveNick_isSome`). -/
def resolveFuel (nicks : NickMap) (reserved : ResMap) : Nat :=
  nicks.length + reserved.length + 2

/-- `_resolve_nick(requested, exclude_id, client_ip)`. -/
def resolveNick (nicks : NickMap) (reserved : ResMap) (now : ℚ) (exclude : Option Nat)
    (clientIp requested : String) : Option (String × ResMap) :=
  let clean := cleanNick requested
  resolveGo nicks reserved now exclude clientIp (strTake clean 17)
    (resolveFuel nicks reserved) 1 clean

/-- The reservation side of the rejection test (lines 566-572): reserved,
unexpired, and for a different nonempty client IP. -/
def resBlocked (reserved : ResMap) (now : ℚ) (clientIp c : String) : Bool :=
  match alookup reserved c with
  | some (resIp, expiry) => decide (now < expiry) && decide (clientIp ≠ "" ∧ clientIp ≠ resIp)
  | none => false

/-- A candidate is rejected by the loop body iff it is held by a different
active session, or reserved, unexpired, for a different nonempty client IP. -/
def blockedAt (nicks : NickMap) (reserved : ResMap) (now : ℚ) (exclude : Option Nat)
    (clientIp c : String) : Bool :=
  activeBlocked nicks exclude c || resBlocked reserved now clientIp c

/-- The reservation map after the loop accepts candidate `c`: an expired
reservation for `c` is popped, anything else is left alone. -/
def resAfterAccept (reserved : ResMap) (now : ℚ) (c : String) : ResMap :=
  match alookup reserved c with
  | some (_, expiry) => if now < expiry then reserved else aerase reserved c
  | none => reserved

/-- One unfolding of the loop, phrased through `blockedAt`/`resAfterAccept`. -/
theorem resolveGo_succ (nicks : NickMap) (reserved : ResMap) (now : ℚ) (exclude : Option Nat)
    (clientIp base17 : String) (fuel suffix : Nat) (candidate : String) :
    resolveGo nicks reserved now exclude clientIp base17 (fuel + 1) suffix candidate =
      if blockedAt nicks reserved now exclude clientIp candidate then
        resolveGo nicks reserved now exclude clientIp base17 fuel (suffix + 1)
          (candStr base17 suffix)
      else some (candidate, resAfterAccept reserved now candidate) := by
  simp only [resolveGo, blockedAt, resBlocked, resAfterAccept]
  by_cases ha : activeBlocked nicks exclude candidate
  · simp [ha]
  · simp only [ha, Bool.false_or, if_neg (by simp [ha] : ¬ activeBlocked nicks exclude candidate = true)]
    match hres : alookup reserved candidate with
    | some (resIp, expiry) =>
      by_cases he : now < expiry
      · by_cases hip : clientIp ≠ "" ∧ clientIp ≠ resIp
        · simp [he, hip]
        · simp [he, hip]
      · simp [he]
    | none => simp

/-- The candidate sequence actually tried: `clean`, then `base17_1`,
`base17_2`, ... -/
def candSeq (clean base17 : String) : Nat → String
  | 0 => clean
  | Nat.succ i => candStr base17 (i + 1)

theorem blockedAt_key_mem {nicks : NickMap} {reserved : ResMap} {now : ℚ}
    {exclude : Option Nat} {clientIp c : String}
    (h : blockedAt nicks reserved now exclude clientIp c = true) :
    c ∈ nicks.map Prod.fst ∨ c ∈ reserved.map Prod.fst := by
  simp only [blockedAt, Bool.or_eq_true] at h
  rcases h with h | h
  · simp only [activeBlocked] at h
    left
    match ho : alookup nicks c with
    | some owner => exact alookup_some_key_mem ho
    | none => rw [ho] at h; simp at h
  · right
    rw [resBlocked] at h
    match hr : alookup reserved c with
    | some pr => exact alookup_some_key_mem hr
    | none => rw [hr] at h; simp at hr h

/-- If the loop runs out of fuel, every suffixed candidate it visited was
blocked. -/
theorem resolveGo_none_blocked (nicks : NickMap) (reserved : ResMap) (now : ℚ)
    (exclude : Option Nat) (clientIp base17 : String) :
    ∀ fuel k, resolveGo nicks reserved now exclude clientIp base17 fuel (k + 1)
        (candStr base17 k) = none →
      ∀ j, k ≤ j → j < k + fuel →
        blockedAt nicks reserved now exclude clientIp (candStr base17 j) = true := by
  intro fuel
  induction fuel with
  | zero => intro k _ j h1 h2; omega
  | succ fuel ih =>
    intro k hnone j h1 h2
    rw [resolveGo_succ] at hnone
    by_cases hb : blockedAt nicks reserved now exclude clientIp (candStr base17 k) = true
    · rw [if_pos hb] at hnone
      by_cases hj : j = k
      · subst hj; exact hb
      · exact ih (k + 1) hnone j (by omega) (by omega)
    · rw [if_neg hb] at hnone
      cases hnone

/-- Termination of the allocation loop: suffixed candidates are pairwise
distinct strings, every rejected candidate is a key of one of the two finite
maps, so the fuel `|nicks| + |reserved| + 2` cannot run out. -/
theorem resolveNick_isSome (nicks : NickMap) (reserved : ResMap) (now : ℚ)
    (exclude : Option Nat) (clientIp requested : String) :
    (resolveNick nicks reserved now exclude clientIp requested).isSome := by
  by_contra hno
  rw [Option.not_isSome_iff_eq_none] at hno
  simp only [resolveNick, resolveFuel] at hno
  set clean := cleanNick requested with hclean
  set b17 := strTake clean 17 with hb17
  set N := nicks.length + reserved.length with hN
  have hsplit : resolveGo nicks reserved now exclude clientIp b17 (N + 1) 2
      (candStr b17 1) = none := by
    have : N + 2 = (N + 1) + 1 := by omega
    rw [this, resolveGo_succ] at hno
    by_cases hb : blockedAt nicks reserved now exclude clientIp clean = true
    · rwa [if_pos hb] at hno
    · rw [if_neg hb] at hno; cases hno
  have hall : ∀ j, 1 ≤ j → j < 1 + (N + 1) →
      blockedAt nicks reserved now exclude clientIp (candStr b17 j) = true :=
    resolveGo_none_blocked nicks reserved now exclude clientIp b17 (N + 1) 1 hsplit
  have hsub : (Finset.Ico 1 (N + 2)).image (candStr b17) ⊆
      (nicks.map Prod.fst ++ reserved.map Prod.fst).toFinset := by
    intro x hx
    obtain ⟨j, hj, hjx⟩ := Finset.mem_image.1 hx
    rw [Finset.mem_Ico] at hj
    have hb := hall j hj.1 (by omega)
    rw [hjx] at hb
    rcases blockedAt_key_mem hb with h | h
    · exact List.mem_toFinset.2 (List.mem_append.2 (Or.inl h))
    · exact List.mem_toFinset.2 (List.mem_append.2 (Or.inr h))
  have hcard1 : ((Finset.Ico 1 (N + 2)).image (candStr b17)).card = N + 1 := by
    rw [Finset.card_image_of_injective _ (candStr_inj b17), Nat.card_Ico]
    omega
  have hcard2 : ((nicks.map Prod.fst ++ reserved.map Prod.fst).toFinset).card ≤ N := by
    calc ((nicks.map Prod.fst ++ reserved.map Prod.fst).toFinset).card
        ≤ (nicks.map Prod.fst ++ reserved.map Prod.fst).length := List.toFinset_card_le _
      _ = N := by simp [hN]
  have := Finset.card_le_card hsub
  omega

/-- What a successful run of the loop means: the result is the first
unblocked candidate in the candidate sequence, and the output reservation map
is `resAfterAccept` at that candidate. -/
theorem resolveGo_some_char (nicks : NickMap) (reserved : ResMap) (now : ℚ)
    (exclude : Option Nat) (clientIp clean b17 : String) :
    ∀ fuel i r res',
      resolveGo nicks reserved now exclude clientIp b17 fuel (i + 1) (candSeq clean b17 i)
          = some (r, res') →
      ∃ m, i ≤ m ∧
        (∀ j, i ≤ j → j < m → blockedAt nicks reserved now exclude clientIp
          (candSeq clean b17 j) = true) ∧
        blockedAt nicks reserved now exclude clientIp (candSeq clean b17 m) = false ∧
        r = candSeq clean b17 m ∧ res' = resAfterAccept reserved now r := by
  intro fuel
  induction fuel with
  | zero => intro i r res' h; simp [resolveGo] at h
  | succ fuel ih =>
    intro i r res' h
    rw [resolveGo_succ] at h
    by_cases hb : blockedAt nicks reserved now exclude clientIp (candSeq clean b17 i) = true
    · rw [if_pos hb] at h
      have hcs : candStr b17 (i + 1) = candSeq clean b17 (i + 1) := rfl
      rw [hcs] at h
      obtain ⟨m, hm1, hm2, hm3, hm4, hm5⟩ := ih (i + 1) r res' h
      refine ⟨m, by omega, ?_, hm3, hm4, hm5⟩
      intro j hj1 hj2
      by_cases hji : j = i
      · subst hji; exact hb
      · exact hm2 j (by omega) hj2
    · rw [if_neg hb] at h
      have h' := Option.some.inj h
      have hr' : r = candSeq clean b17 i := (congrArg Prod.fst h').symm
      have hres' : res' = resAfterAccept reserved now (candSeq clean b17 i) :=
        (congrArg Prod.snd h').symm
      refine ⟨i, le_refl i, fun j hj1 hj2 => absurd hj1 (by omega), ?_, hr', ?_⟩
      · rwa [Bool.not_eq_true] at hb
      · rw [hres', hr']

/-- Characterization of `_resolve_nick` itself: its result is the first
unblocked candidate of the sequence `clean, base17_1, base17_2, ...`. -/
theorem resolveNick_char (nicks : NickMap) (reserved : ResMap) (now : ℚ)
    (exclude : Option Nat) (clientIp requested : String) (r : String) (res' : ResMap)
    (h : resolveNick nicks reserved now exclude clientIp requested = some (r, res')) :
    ∃ m, (∀ j, j < m → blockedAt nicks reserved now exclude clientIp
        (candSeq (cleanNick requested) (strTake (cleanNick requested) 17) j) = true) ∧
      blockedAt nicks reserved now exclude clientIp
        (candSeq (cleanNick requested) (strTake (cleanNick requested) 17) m) = false ∧
      r = candSeq (cleanNick requested) (strTake (cleanNick requested) 17) m ∧
      res' = resAfterAccept reserved now r := by
  simp only [resolveNick, resolveFuel] at h
  have h0 : candSeq (cleanNick requested) (strTake (cleanNick requested) 17) 0
      = cleanNick requested := rfl
  rw [← h0] at h
  have : nicks.length + reserved.length + 2 = nicks.length + reserved.length + 2 := rfl
  obtain ⟨m, _, hm2, hm3, hm4, hm5⟩ :=
    resolveGo_some_char nicks reserved now exclude clientIp (cleanNick requested)
      (strTake (cleanNick requested) 17) (nicks.length + reserved.length + 2) 0 r res' h
  exact ⟨m, fun j hj => hm2 j (Nat.zero_le j) hj, hm3, hm4, hm5⟩

/-- If every candidate blocked in the first state stays blocked in a second
state, the winning candidate is unblocked there, and accepting it does not
mutate the second reservation map, then resolution in the second state gives
the same nickname. -/
theorem resolveNick_agree (nicks nicks1 : NickMap) (reserved reserved1 : ResMap) (now : ℚ)
    (exclude : Option Nat) (clientIp requested : String) (r : String) (res1 : ResMap)
    (h1 : resolveNick nicks reserved now exclude clientIp requested = some (r, res1))
    (hA : ∀ c, c ≠ r → blockedAt nicks reserved now exclude clientIp c = true →
      blockedAt nicks1 reserved1 now exclude clientIp c = true)
    (hB : blockedAt nicks1 reserved1 now exclude clientIp r = false)
    (hC : resAfterAccept reserved1 now r = reserved1) :
    resolveNick nicks1 reserved1 now exclude clientIp requested = some (r, reserved1) := by
  obtain ⟨m, hm2, hm3, hm4, hm5⟩ := resolveNick_char _ _ _ _ _ _ _ _ h1
  obtain ⟨⟨r2, res2⟩, hsome⟩ := Option.isSome_iff_exists.1
    (resolveNick_isSome nicks1 reserved1 now exclude clientIp requested)
  obtain ⟨m2, hn2, hn3, hn4, hn5⟩ := resolveNick_char _ _ _ _ _ _ _ _ hsome
  have hblock1 : ∀ j, j < m → blockedAt nicks1 reserved1 now exclude clientIp
      (candSeq (cleanNick requested) (strTake (cleanNick requested) 17) j) = true := by
    intro j hj
    refine hA _ ?_ (hm2 j hj)
    intro heq
    have hbj := hm2 j hj
    rw [heq, hm4] at hbj
    rw [hm3] at hbj
    cases hbj
  have hmm : m2 = m := by
    rcases Nat.lt_trichotomy m2 m with hlt | heq | hgt
    · have := hblock1 m2 hlt
      rw [hn3] at this
      cases this
    · exact heq
    · have := hn2 m hgt
      rw [← hm4] at this
      rw [hB] at this
      cases this
  have hr2 : r2 = r := by rw [hn4, hmm, ← hm4]
  have hres2 : res2 = reserved1 := by rw [hn5, hr2, hC]
  rw [hsome, hr2, hres2]

/-! ### Server data model (mortalnet.py lines 61-159) -/

def MAX_LINE_BYTES : Nat := 1024

/-- The configuration fields the connection/session subsystem reads.
`ban_file_contents` / `motd_file_contents` stand for the contents of the
configured files (`none` = file missing), so that `reload` is a pure map. -/
structure Config where
  max_clients : Nat := 100
  rate : ℚ := 5
  burst : ℚ := 10
  strikes : Nat := 3
  motd : String := ""
  motd_file : String := ""
  history_size : Nat := 20
  nick_reserve_secs : ℚ := 60
  stats_file : String := ""
  admin_password : String := ""
  ban_file : String := ""
  ban_file_contents : Option String := none
  motd_file_contents : Option String := none
deriving DecidableEq, Repr

/-- Per-connection state (`Client` dataclass, lines 117-128); `writerClosed`
models the transport having been closed under the session's feet. -/
structure Client where
  id : Nat
  ip : String
  nick : String := ""
  nick_confirmed : Bool := false
  status : String := "chat"
  joined_at : ℚ := 0
  last_activity : ℚ := 0
  bucket : TokenBucket
  strikes : Nat := 0
  writerClosed : Bool := false
deriving DecidableEq, Repr

/-- In-process counters (lines 147-153). -/
structure Metrics where
  connections_total : Nat := 0
  messages_total : Nat := 0
  challenges_total : Nat := 0
  kicks_total : Nat := 0
  bans_total : Nat := 0
deriving DecidableEq, Repr

/-- Per-player persistent record (lines 622-629). -/
structure PlayerRec where
  first_seen : ℚ
  last_seen : ℚ
  connect_count : Nat := 0
  message_count : Nat := 0
  challenge_sent_count : Nat := 0
  challenge_received_count : Nat := 0
deriving DecidableEq, Repr

/-- Persistent stats document (lines 597-603). -/
structure Stats where
  server_start : ℚ := 0
  total_connections : Nat := 0
  total_messages : Nat := 0
  total_challenges : Nat := 0
  players : List (String × PlayerRec) := []
deriving DecidableEq, Repr

/-- The registry / hub (lines 137-157): id → Client, nick → id,
reserved nick → (ip, expiry), history ring, banned IPs, counters, stats,
current MOTD. -/
structure ServerState where
  clients : List (Nat × Client) := []
  nicks : NickMap := []
  reserved : ResMap := []
  history : List String := []
  banned : List String := []
  metrics : Metrics := {}
  stats : Stats := {}
  motd : String := ""
deriving DecidableEq, Repr

/-- `_broadcast` recipient set (lines 541-544): every confirmed session whose
id is not the excluded one, in registry order. -/
def bcastRecipients (s : ServerState) (exclude : Option Nat) : List Nat :=
  (s.clients.filter (fun p => p.2.nick_confirmed && decide (some p.1 ≠ exclude))).map
    (fun p => p.1)

/-- `_broadcast(msg, exclude_id)` as an event list. -/
def bcastOut (s : ServerState) (msg : String) (exclude : Option Nat) : Out :=
  (bcastRecipients s exclude).map (fun i => (i, msg))

/-- `_get_client_by_nick` (lines 546-548). -/
def getClientByNick (s : ServerState) (nick : String) : Option (Nat × Client) :=
  match alookup s.nicks nick with
  | some cid => (alookup s.clients cid).map (fun c => (cid, c))
  | none => none

/-- The confirmed peers a new joiner is shown (lines 334-336), in registry
order. -/
def othersOf (s : ServerState) (cid : Nat) : List (Nat × Client) :=
  s.clients.filter (fun p => decide (p.1 ≠ cid) && p.2.nick_confirmed)

/-- MOTD expansion during registration (lines 343-347): split lines, strip
each, keep the non-empty ones. -/
def motdLines (motd : String) : List String :=
  if motd = "" then []
  else ((motd.splitOn "\n").map String.trim).filter (fun l => l ≠ "")

/-- `_bump_player_stat` (lines 616-632): no-op when stats are disabled,
otherwise refresh `last_seen` and bump the named counter. -/
def bumpPlayerStat (cfg : Config) (st : Stats) (now : ℚ) (nick key : String) : Stats :=
  if cfg.stats_file = "" then st
  else
    let p0 : PlayerRec :=
      match alookup st.players nick with
      | some p => p
      | none => { first_seen := now, last_seen := now }
    let p1 := { p0 with last_seen := now }
    let p2 :=
      if key = "connect_count" then { p1 with connect_count := p1.connect_count + 1 }
      else if key = "message_count" then { p1 with message_count := p1.message_count + 1 }
      else if key = "challenge_sent_count" then
        { p1 with challenge_sent_count := p1.challenge_sent_count + 1 }
      else if key = "challenge_received_count" then
        { p1 with challenge_received_count := p1.challenge_received_count + 1 }
      else p1
    { st with players := ainsert st.players nick p2 }

/-- `_sanitize` (line 874-875): drop control characters below 0x20. -/
def sanitize (text : String) : String :=
  String.mk (text.data.filter (fun ch => 32 ≤ ch.toNat))

/-! ### Protocol handlers (mortalnet.py lines 306-521) -/

/-- `_on_nick` (lines 306-352). Sends are returned in emission order. The
reservation map coming back from `_resolve_nick` is installed even on the
rename-to-same-name early return, because the Python loop mutates
`self._reserved` in place. -/
def onNick (cfg : Config) (s : ServerState) (now : ℚ) (cid : Nat) (requested : String) :
    ServerState × Out :=
  match alookup s.clients cid with
  | none => (s, [])
  | some c =>
    match resolveNick s.nicks s.reserved now (some cid) c.ip requested with
    | none => (s, [])
    | some (newNick, res') =>
      let s0 := { s with reserved := res' }
      if c.nick_confirmed then
        if newNick = c.nick then (s0, [])
        else
          let c' := { c with nick := newNick }
          let s1 := { s0 with
            nicks := ainsert (aerase s0.nicks c.nick) newNick cid,
            clients := ainsert s0.clients cid c' }
          (s1, (cid, "Y" ++ newNick) ::
            bcastOut s1 ("N" ++ c.nick ++ " " ++ newNick) none)
      else
        let c' := { c with nick := newNick, nick_confirmed := true }
        let s1 := { s0 with
          nicks := ainsert s0.nicks newNick cid,
          reserved := aerase s0.reserved newNick,
          clients := ainsert s0.clients cid c',
          stats := bumpPlayerStat cfg s0.stats now newNick "connect_count" }
        (s1, (cid, "Y" ++ newNick) ::
          ((othersOf s1 cid).map (fun p => (cid, "J" ++ p.2.nick ++ " " ++ p.2.ip)) ++
           s1.history.map (fun m => (cid, m)) ++
           (motdLines s1.motd).map (fun l => (cid, "S" ++ l)) ++
           bcastOut s1 ("J" ++ newNick ++ " " ++ c.ip) (some cid)))

/-- `_on_message` (lines 354-369). -/
def onMessage (cfg : Config) (s : ServerState) (now : ℚ) (cid : Nat) (text : String) :
    ServerState × Out :=
  match alookup s.clients cid with
  | none => (s, [])
  | some c =>
    let text := sanitize text
    if text = "" then (s, [])
    else
      let msg := "M" ++ c.nick ++ " " ++ text
      let h0 := s.history ++ [msg]
      let h1 := if h0.length > cfg.history_size then h0.tail else h0
      let s1 := { s with
        history := h1,
        metrics := { s.metrics with messages_total := s.metrics.messages_total + 1 },
        stats :=
          bumpPlayerStat cfg
            { s.stats with total_messages := s.stats.total_messages + 1 }
            now c.nick "message_count" }
      (s1, bcastOut s1 msg none)

/-- `_on_challenge` (lines 371-385). -/
def onChallenge (cfg : Config) (s : ServerState) (now : ℚ) (cid : Nat) (tn : String) :
    ServerState × Out :=
  match alookup s.clients cid with
  | none => (s, [])
  | some c =>
    let tn := tn.trim
    if tn = c.nick then (s, [(cid, "SYou cannot challenge yourself.")])
    else
      match getClientByNick s tn with
      | none => (s, [(cid, "SNo such user: " ++ tn)])
      | some (tid, _) =>
        let s1 := { s with
          metrics := { s.metrics with challenges_total := s.metrics.challenges_total + 1 },
          stats :=
            bumpPlayerStat cfg
              (bumpPlayerStat cfg
                { s.stats with total_challenges := s.stats.total_challenges + 1 }
                now c.nick "challenge_sent_count")
              now tn "challenge_received_count" }
        (s1, [(tid, "C" ++ c.nick)])

/-- `_on_whois` (lines 387-393). -/
def onWhois (s : ServerState) (cid : Nat) (tn : String) : ServerState × Out :=
  match alookup s.clients cid with
  | none => (s, [])
  | some _ =>
    let tn := tn.trim
    match getClientByNick s tn with
    | none => (s, [(cid, "SNo such user: " ++ tn)])
    | some (_, t) => (s, [(cid, "W" ++ t.nick ++ " " ++ t.ip)])

/-- `_try_matchmake` (lines 407-424): the first other confirmed queued
session is paired. -/
def tryMatchmake (s : ServerState) (jid : Nat) (j : Client) : ServerState × Out :=
  match s.clients.find? (fun p =>
      decide (p.1 ≠ jid) && p.2.nick_confirmed && decide (p.2.status = "queue")) with
  | none => (s, [])
  | some (oid, o) =>
    let j' := { j with status := "chat" }
    let o' := { o with status := "chat" }
    let s1 := { s with
      clients := ainsert (ainsert s.clients jid j') oid o',
      metrics := { s.metrics with challenges_total := s.metrics.challenges_total + 1 } }
    (s1, [(jid, "C" ++ o.nick), (oid, "C" ++ j.nick)] ++
      bcastOut s1 ("T" ++ j.nick ++ " chat") none ++
      bcastOut s1 ("T" ++ o.nick ++ " chat") none ++
      [(jid, "SMatchmaking: paired with " ++ o.nick ++ "!"),
       (oid, "SMatchmaking: paired with " ++ j.nick ++ "!")])

/-- `_on_status` (lines 395-405). -/
def onStatus (s : ServerState) (cid : Nat) (raw : String) : ServerState × Out :=
  match alookup s.clients cid with
  | none => (s, [])
  | some c =>
    let status := raw.trim.toLower
    if status ∈ ["chat", "away", "game", "queue"] then
      let c' := { c with status := status }
      let s1 := { s with clients := ainsert s.clients cid c' }
      let out1 := bcastOut s1 ("T" ++ c.nick ++ " " ++ status) none
      if status = "queue" then
        let r := tryMatchmake s1 cid c'
        (r.1, out1 ++ r.2)
      else (s1, out1)
    else (s, [(cid, "SInvalid status. Choose: away, chat, game, queue")])

/-- `_load_ban_list` (lines 638-653) on the configured file contents:
strip each line, drop blanks and `#` comments; keep the old set when the
feature is off or the file is missing. -/
def loadBanList (cfg : Config) (old : List String) : List String :=
  if cfg.ban_file = "" then old
  else
    match cfg.ban_file_contents with
    | none => old
    | some txt =>
      ((txt.splitOn "\n").map String.trim).filter
        (fun l => l ≠ "" && !(l.startsWith "#"))

/-- `_load_motd` (lines 659-666). -/
def loadMotd (cfg : Config) : String :=
  if cfg.motd_file ≠ "" then
    match cfg.motd_file_contents with
    | some txt => txt.trim
    | none => cfg.motd
  else cfg.motd

/-- Python `content.split(" ", 2)`. -/
def splitMax2 (s : String) : List String :=
  let parts := s.splitOn " "
  if parts.length ≤ 3 then parts
  else parts.take 2 ++ [String.intercalate " " (parts.drop 2)]

/-- Set-insertion into the banned list (`self._banned_ips.add(ip)`). -/
def bannedInsert (banned : List String) (ip : String) : List String :=
  if ip ∈ banned then banned else banned ++ [ip]

/-- `_admin_kick` (lines 460-472): message the target, close its writer,
count the kick, confirm to the admin — and nothing else. -/
def adminKick (s : ServerState) (aid : Nat) (tn : String) : ServerState × Out :=
  match getClientByNick s tn with
  | none => (s, [(aid, "SNo such user: " ++ tn)])
  | some (tid, t) =>
    let t' := { t with writerClosed := true }
    let s1 := { s with
      clients := ainsert s.clients tid t',
      metrics := { s.metrics with kicks_total := s.metrics.kicks_total + 1 } }
    (s1, [(tid, "SYou have been kicked by an administrator."),
          (aid, "SKicked " ++ tn ++ ".")])

/-- `_admin_ban` (lines 474-493); the best-effort ban-file append is outside
the modelled state. -/
def adminBan (s : ServerState) (aid : Nat) (arg : String) : ServerState × Out :=
  let step :=
    match getClientByNick s arg with
    | some (_, t) =>
      let r := adminKick s aid arg
      (t.ip, r.1, r.2)
    | none => (arg, s, ([] : Out))
  let ip := step.1
  let s1 := step.2.1
  let s2 := { s1 with
    banned := bannedInsert s1.banned ip,
    metrics := { s1.metrics with bans_total := s1.metrics.bans_total + 1 } }
  (s2, step.2.2 ++ [(aid, "SBanned " ++ ip ++ ".")])

/-- `_on_admin` (lines 426-458). -/
def onAdmin (cfg : Config) (s : ServerState) (cid : Nat) (content : String) :
    ServerState × Out :=
  match alookup s.clients cid with
  | none => (s, [])
  | some _ =>
    if cfg.admin_password = "" then
      (s, [(cid, "SAdmin commands are disabled on this server.")])
    else
      let parts := splitMax2 content
      if parts.length < 2 then
        (s, [(cid, "SUsage: A<password> <kick|ban|reload|motd> [args]")])
      else
        let password := parts.headD ""
        let cmd := (parts.getD 1 "").toLower
        let args := if parts.length > 2 then (parts.getD 2 "").trim else ""
        if password ≠ cfg.admin_password then
          (s, [(cid, "SInvalid admin password.")])
        else if cmd = "kick" then adminKick s cid args
        else if cmd = "ban" then adminBan s cid args
        else if cmd = "reload" then
          ({ s with banned := loadBanList cfg s.banned, motd := loadMotd cfg },
           [(cid, "SReloaded ban list and MOTD.")])
        else if cmd = "motd" then
          ({ s with motd := args }, [(cid, "SMOTD updated.")])
        else (s, [(cid, "SUnknown command: " ++ cmd)])

/-- `_on_leave` (lines 495-521). -/
def onLeave (cfg : Config) (s : ServerState) (now : ℚ) (cid : Nat) : ServerState × Out :=
  match alookup s.clients cid with
  | none => (s, [])
  | some c =>
    let s1 := { s with clients := aerase s.clients cid }
    if c.nick_confirmed && (alookup s1.nicks c.nick).isSome then
      let s2 := { s1 with nicks := aerase s1.nicks c.nick }
      let s3 :=
        if 0 < cfg.nick_reserve_secs then
          { s2 with reserved := ainsert s2.reserved c.nick (c.ip, now + cfg.nick_reserve_secs) }
        else s2
      let out := bcastOut s3 ("L" ++ c.nick) none
      let s4 := { s3 with stats := bumpPlayerStat cfg s3.stats now c.nick "" }
      (s4, out)
    else (s1, [])

/-- `_handle_client` up to the registration of the new session
(lines 203-241): ban check, capacity check, counters, registry insert.
The returned flag says whether the read loop starts. -/
def handleConn (cfg : Config) (s : ServerState) (now : ℚ) (cid : Nat) (ip : String) :
    ServerState × Out × Bool :=
  if ip ∈ s.banned then
    (s, [(cid, "SYou are banned from this server.")], false)
  else if cfg.max_clients ≤ s.clients.length then
    (s, [(cid, "SServer is full. Try again later.")], false)
  else
    let bk : TokenBucket :=
      { rate := cfg.rate, burst := cfg.burst, tokens := cfg.burst, last := now }
    let c : Client :=
      { id := cid, ip := ip, joined_at := now, last_activity := now, bucket := bk }
    ({ s with
        metrics := { s.metrics with
          connections_total := s.metrics.connections_total + 1 },
        stats := { s.stats with total_connections := s.stats.total_connections + 1 },
        clients := ainsert s.clients cid c },
      [], true)

/-- `_update_snapshot` player count (lines 672-690): confirmed sessions. -/
def snapshotPlayerCount (s : ServerState) : Nat :=
  (s.clients.filter (fun p => p.2.nick_confirmed)).length

/-! ### Read loop and dispatcher (mortalnet.py lines 254-301) -/

/-- U+FFFD, the replacement marker of `decode("utf-8", errors="replace")`. -/
def replChar : Char := Char.ofNat 65533

def isCont (b : Nat) : Bool := decide (128 ≤ b) && decide (b < 192)

/-- UTF-8 decoding with replacement on malformed input, on fuel (the list
length). The claims only exercise ASCII bytes, where this is the byte map. -/
def utf8DecodeGo : Nat → List Nat → List Char
  | 0, _ => []
  | _, [] => []
  | Nat.succ fuel, b :: rest =>
    if b < 128 then Char.ofNat b :: utf8DecodeGo fuel rest
    else if decide (192 ≤ b) && decide (b < 224) then
      match rest with
      | b2 :: rest2 =>
        if isCont b2 then
          Char.ofNat ((b - 192) * 64 + (b2 - 128)) :: utf8DecodeGo fuel rest2
        else replChar :: utf8DecodeGo fuel rest
      | [] => [replChar]
    else if decide (224 ≤ b) && decide (b < 240) then
      match rest with
      | b2 :: b3 :: rest3 =>
        if isCont b2 && isCont b3 then
          Char.ofNat ((b - 224) * 4096 + (b2 - 128) * 64 + (b3 - 128)) :: utf8DecodeGo fuel rest3
        else replChar :: utf8DecodeGo fuel rest
      | _ => replChar :: utf8DecodeGo fuel rest
    else if decide (240 ≤ b) && decide (b < 248) then
      match rest with
      | b2 :: b3 :: b4 :: rest4 =>
        if isCont b2 && isCont b3 && isCont b4 then
          Char.ofNat ((b - 240) * 262144 + (b2 - 128) * 4096 + (b3 - 128) * 64 + (b4 - 128)) ::
            utf8DecodeGo fuel rest4
        else replChar :: utf8DecodeGo fuel rest
      | _ => replChar :: utf8DecodeGo fuel rest
    else replChar :: utf8DecodeGo fuel rest

def utf8Decode (l : List Nat) : List Char := utf8DecodeGo l.length l

/-- `raw.rstrip(b"\r\n")` (line 270). -/
def stripCRLF (raw : List Nat) : List Nat :=
  (raw.reverse.dropWhile (fun b => b == 13 || b == 10)).reverse

/-- Outcome of one read-loop iteration: `halt` means the read loop returns
(the connection is torn down by `_on_leave` at the caller). -/
inductive StepRes where
  | halt (s : ServerState) (out : Out)
  | step (s : ServerState) (out : Out)
deriving DecidableEq, Repr

/-- The flood-control block (lines 283-292), factored out: on a refused
token, a strike; at the strike limit, disconnect; on success, strikes reset
to zero. -/
inductive RateRes where
  | pass (c : Client)
  | drop (c : Client)
  | cut (c : Client)
deriving DecidableEq, Repr

def rateGate (cfg : Config) (c : Client) (now : ℚ) : RateRes :=
  let r := c.bucket.consume now
  if r.2 then RateRes.pass { c with bucket := r.1, strikes := 0 }
  else
    let c' := { c with bucket := r.1, strikes := c.strikes + 1 }
    if cfg.strikes ≤ c'.strikes then RateRes.cut c' else RateRes.drop c'

/-- Dispatch on the prefix byte (lines 294-300). -/
def dispatchCmd (cfg : Config) (s : ServerState) (now : ℚ) (cid : Nat) (pfx : Char)
    (content : String) : StepRes :=
  if pfx = 'N' then
    let r := onNick cfg s now cid content
    StepRes.step r.1 r.2
  else if pfx = 'M' then
    let r := onMessage cfg s now cid content
    StepRes.step r.1 r.2
  else if pfx = 'C' then
    let r := onChallenge cfg s now cid content
    StepRes.step r.1 r.2
  else if pfx = 'W' then
    let r := onWhois s cid content
    StepRes.step r.1 r.2
  else if pfx = 'T' then
    let r := onStatus s cid content
    StepRes.step r.1 r.2
  else if pfx = 'A' then
    let r := onAdmin cfg s cid content
    StepRes.step r.1 r.2
  else if pfx = 'L' then StepRes.halt s []
  else StepRes.step s []

/-- Lines 274-300: prefix byte, UTF-8 content, activity refresh, pre-nick
gating, flood control, dispatch. `b :: rest` is the stripped line. -/
def handleLine (cfg : Config) (s : ServerState) (now : ℚ) (cid : Nat) (c : Client)
    (b : Nat) (rest : List Nat) : StepRes :=
  let pfx := Char.ofNat b
  let content := String.mk (utf8Decode rest)
  let c0 := { c with last_activity := now }
  let s0 := { s with clients := ainsert s.clients cid c0 }
  if !c0.nick_confirmed && !(pfx = 'N' || pfx = 'L') then StepRes.step s0 []
  else if pfx = 'M' || pfx = 'C' || pfx = 'W' || pfx = 'T' then
    match rateGate cfg c0 now with
    | RateRes.cut c1 =>
      StepRes.halt { s0 with clients := ainsert s0.clients cid c1 }
        [(cid, "SYou have been disconnected for flooding.")]
    | RateRes.drop c1 =>
      StepRes.step { s0 with clients := ainsert s0.clients cid c1 } []
    | RateRes.pass c1 =>
      dispatchCmd cfg { s0 with clients := ainsert s0.clients cid c1 } now cid pfx content
  else dispatchCmd cfg s0 now cid pfx content

/-- Processing of a stripped line (lines 270-300): blank lines are skipped. -/
def procLine (cfg : Config) (s : ServerState) (now : ℚ) (cid : Nat) :
    List Nat → StepRes
  | [] => StepRes.step s []
  | b :: rest =>
    match alookup s.clients cid with
    | none => StepRes.step s []
    | some c => handleLine cfg s now cid c b rest

/-- One iteration of `_read_loop` (lines 254-300) on a received raw line
(terminator included): EOF and oversized lines end the loop silently. -/
def readStep (cfg : Config) (s : ServerState) (now : ℚ) (cid : Nat) (raw : List Nat) :
    StepRes :=
  if raw = [] then StepRes.halt s []
  else if MAX_LINE_BYTES < raw.length then StepRes.halt s []
  else procLine cfg s now cid (stripCRLF raw)

/-- Run the read loop over a list of raw lines arriving at one instant.
Returns the final state, the concatenated sends, and whether the loop
returned early. -/
def readLoopGo (cfg : Config) : ServerState → ℚ → Nat → List (List Nat) →
    ServerState × Out × Bool
  | s, _, _, [] => (s, [], false)
  | s, now, cid, raw :: rest =>
    match readStep cfg s now cid raw with
    | StepRes.halt s1 o1 => (s1, o1, true)
    | StepRes.step s1 o1 =>
      let r := readLoopGo cfg s1 now cid rest
      (r.1, o1 ++ r.2.1, r.2.2)

/-! ### Properties of the resolved nickname (claims C1, C3) -/

theorem isNickChar_of_digit (c : Char) (h : c.isDigit = true) : isNickChar c = true := by
  simp [isNickChar, h]

theorem strTake_data (s : String) (n : Nat) : (strTake s n).data = s.data.take n := rfl

theorem candStr_data (b : String) (k : Nat) :
    (candStr b k).data = b.data ++ ('_' :: natDigits k) := by
  have h1 : "_".data = ['_'] := rfl
  simp [candStr, String.data_append, h1]

theorem cleanNick_data_ne (requested : String) : (cleanNick requested).data ≠ [] := by
  unfold cleanNick
  by_cases h : String.mk ((requested.data.filter isNickChar).take 20) = ""
  · rw [if_pos h]; decide
  · rw [if_neg h]
    intro hd
    apply h
    have : String.mk ((requested.data.filter isNickChar).take 20)
        = String.mk [] := congrArg String.mk hd
    simpa using this

theorem cleanNick_data_chars (requested : String) :
    ∀ c ∈ (cleanNick requested).data, isNickChar c = true := by
  unfold cleanNick
  by_cases h : String.mk ((requested.data.filter isNickChar).take 20) = ""
  · rw [if_pos h]; decide
  · rw [if_neg h]
    intro c hc
    have hc' : c ∈ requested.data.filter isNickChar := List.take_subset _ _ hc
    exact (List.mem_filter.1 hc').2

theorem candSeq_data_ne (requested : String) (m : Nat) :
    (candSeq (cleanNick requested) (strTake (cleanNick requested) 17) m).data ≠ [] := by
  cases m with
  | zero => exact cleanNick_data_ne requested
  | succ i =>
    show (candStr (strTake (cleanNick requested) 17) (i + 1)).data ≠ []
    rw [candStr_data]
    simp

theorem candSeq_chars (requested : String) (m : Nat) :
    ∀ c ∈ (candSeq (cleanNick requested) (strTake (cleanNick requested) 17) m).data,
      isNickChar c = true := by
  cases m with
  | zero => exact cleanNick_data_chars requested
  | succ i =>
    show ∀ c ∈ (candStr (strTake (cleanNick requested) 17) (i + 1)).data, _
    rw [candStr_data]
    intro c hc
    rcases List.mem_append.1 hc with h1 | h1
    · rw [strTake_data] at h1
      exact cleanNick_data_chars requested c (List.take_subset _ _ h1)
    · rcases List.mem_cons.1 h1 with h2 | h2
      · subst h2; decide
      · exact isNickChar_of_digit c (natDigits_all_digit (i + 1) c h2)

theorem blockedAt_false_active {nicks : NickMap} {reserved : ResMap} {now : ℚ}
    {exclude : Option Nat} {clientIp r : String}
    (h : blockedAt nicks reserved now exclude clientIp r = false) :
    ∀ o, alookup nicks r = some o → some o = exclude := by
  intro o ho
  rw [blockedAt, Bool.or_eq_false_iff] at h
  have ha := h.1
  rw [activeBlocked, ho] at ha
  rw [decide_eq_false_iff_not] at ha
  exact not_not.1 ha

theorem blockedAt_false_reserved {nicks : NickMap} {reserved : ResMap} {now : ℚ}
    {exclude : Option Nat} {clientIp r : String}
    (h : blockedAt nicks reserved now exclude clientIp r = false)
    (rip : String) (e : ℚ) (hres : alookup reserved r = some (rip, e)) (hlt : now < e) :
    clientIp = "" ∨ clientIp = rip := by
  rw [blockedAt, Bool.or_eq_false_iff] at h
  have hb := h.2
  rw [resBlocked, hres] at hb
  simp only [decide_eq_true_eq, Bool.and_eq_false_iff, decide_eq_false_iff_not] at hb
  rcases hb with hb | hb
  · exact absurd hlt (by simpa using hb)
  · by_cases hip : clientIp = ""
    · exact Or.inl hip
    · right
      by_contra hne
      exact hb ⟨hip, hne⟩

/-- C1 (amended): for every requested string, excluded id and client IP, the
allocation loop terminates on its fuel bound and returns a nonempty nickname
over `[A-Za-z0-9_-]` that is not held by any live confirmed session other
than the excluded id, and that is not left reserved (in the post-resolution
reservation map) except unexpired and for the client's own IP or with an
empty (wildcard) client IP. The original length bound of 20 does not hold in
general (see the counterexample: with 100 or more blocked suffix candidates
the suffix reaches three digits and the name reaches 21 characters), and an
empty client IP is treated as matching any reservation. -/
theorem resolveNick_guarantees (nicks : NickMap) (reserved : ResMap) (now : ℚ)
    (exclude : Option Nat) (clientIp requested : String) :
    ∃ r res', resolveNick nicks reserved now exclude clientIp requested = some (r, res') ∧
      r.data ≠ [] ∧ (∀ c ∈ r.data, isNickChar c = true) ∧
      (∀ o, alookup nicks r = some o → some o = exclude) ∧
      (∀ rip e, alookup res' r = some (rip, e) →
        now < e ∧ (clientIp = "" ∨ clientIp = rip)) := by
  obtain ⟨⟨r, res'⟩, hs⟩ := Option.isSome_iff_exists.1
    (resolveNick_isSome nicks reserved now exclude clientIp requested)
  obtain ⟨m, hm2, hm3, hm4, hm5⟩ := resolveNick_char _ _ _ _ _ _ _ _ hs
  have hblk : blockedAt nicks reserved now exclude clientIp r = false := by
    rw [hm4]; exact hm3
  refine ⟨r, res', hs, ?_, ?_, blockedAt_false_active hblk, ?_⟩
  · rw [hm4]; exact candSeq_data_ne requested m
  · rw [hm4]; exact candSeq_chars requested m
  · intro rip e hre
    rw [hm5] at hre
    rcases hq : alookup reserved r with _ | ⟨rip0, e0⟩
    · rw [resAfterAccept, hq] at hre
      dsimp only at hre
      rw [hq] at hre
      cases hre
    · rw [resAfterAccept, hq] at hre
      dsimp only at hre
      by_cases hlt : now < e0
      · rw [if_pos hlt, hq] at hre
        have h1 : rip0 = rip := congrArg Prod.fst (Option.some.inj hre)
        have h2 : e0 = e := congrArg Prod.snd (Option.some.inj hre)
        rw [h1] at hq
        rw [h2] at hq hlt
        exact ⟨hlt, blockedAt_false_reserved hblk rip e hq hlt⟩
      · rw [if_neg hlt, alookup_aerase, if_pos rfl] at hre
        cases hre

/-- Witness for C1 at a concrete input: a collision with a live session. -/
theorem resolveNick_guarantees_witness :
    ∃ r res', resolveNick [("Bob", 7)] [] 0 (some 1) "1.2.3.4" "Bob" = some (r, res') ∧
      r.data ≠ [] ∧ (∀ c ∈ r.data, isNickChar c = true) ∧
      (∀ o, alookup [("Bob", 7)] r = some o → some o = some 1) ∧
      (∀ rip e, alookup res' r = some (rip, e) →
        (0:ℚ) < e ∧ ("1.2.3.4" = "" ∨ "1.2.3.4" = rip)) :=
  resolveNick_guarantees [("Bob", 7)] [] 0 (some 1) "1.2.3.4" "Bob"

set_option maxRecDepth 100000 in
set_option maxHeartbeats 4000000 in
/-- C1 counterexample: with the 17-character base `AAAAAAAAAAAAAAAAA` live
reservations (unexpired, different IP) on the base and on the suffixed
candidates `_1` .. `_99`, the allocator returns `AAAAAAAAAAAAAAAAA_100`,
a 21-character nickname — outside the 1..20 length bound. -/
theorem resolveNick_overlong_cex :
    (resolveNick [] (("AAAAAAAAAAAAAAAAA", ("1.1.1.1", 1000)) ::
        (List.range 99).map (fun i => (candStr "AAAAAAAAAAAAAAAAA" (i + 1), ("1.1.1.1", 1000))))
        0 none "2.2.2.2" "AAAAAAAAAAAAAAAAA").map (fun r => r.1.length) = some 21 ∧
      ¬ (21 ≤ 20) := by
  exact ⟨by decide, by decide⟩

/-- C3 (amended): at a candidate free of active owners but reserved, the
loop behaves as follows: if `now < expiry` and the client IP is nonempty
and differs from the reserved IP, the candidate is skipped (next suffix);
if `now < expiry` and the client IP is empty or equals the reserved IP, the
candidate is returned with the reservation left in place (it is popped later
by the first-registration handler, not by the allocator); if `now ≥ expiry`,
the reservation is dropped and the candidate returned. So a reservation
blocks only unexpired and against a different, nonempty IP, and expired
reservations are cleared lazily on the next lookup. -/
theorem resolveGo_reserved_step (nicks : NickMap) (reserved : ResMap) (now : ℚ)
    (exclude : Option Nat) (clientIp base17 : String) (fuel suffix : Nat)
    (cand rip : String) (e : ℚ)
    (ha : activeBlocked nicks exclude cand = false)
    (hr : alookup reserved cand = some (rip, e)) :
    resolveGo nicks reserved now exclude clientIp base17 (fuel + 1) suffix cand =
      if now < e ∧ clientIp ≠ "" ∧ clientIp ≠ rip then
        resolveGo nicks reserved now exclude clientIp base17 fuel (suffix + 1)
          (candStr base17 suffix)
      else if now < e then some (cand, reserved)
      else some (cand, aerase reserved cand) := by
  simp only [resolveGo]
  rw [if_neg (by rw [ha]; exact Bool.false_ne_true), hr]
  dsimp only
  by_cases h1 : now < e
  · by_cases h2 : clientIp ≠ "" ∧ clientIp ≠ rip
    · rw [if_pos h1, if_pos h2, if_pos ⟨h1, h2⟩]
    · rw [if_pos h1, if_neg h2, if_neg (fun hcon => h2 hcon.2), if_pos h1]
  · rw [if_neg h1, if_neg (fun hcon => h1 hcon.1), if_neg h1]

/-- Witness for C3: a live reservation for the same IP is honored and the
reservation is kept. -/
theorem resolveGo_reserved_step_witness :
    activeBlocked [] none "Alice" = false ∧
      alookup [("Alice", ("1.1.1.1", (100:ℚ)))] "Alice" = some ("1.1.1.1", 100) ∧
      resolveGo [] [("Alice", ("1.1.1.1", 100))] 0 none "1.1.1.1" "Alice" 3 1 "Alice" =
        (if (0:ℚ) < 100 ∧ "1.1.1.1" ≠ "" ∧ "1.1.1.1" ≠ "1.1.1.1" then
          resolveGo [] [("Alice", ("1.1.1.1", 100))] 0 none "1.1.1.1" "Alice" 2 2
            (candStr "Alice" 1)
        else if (0:ℚ) < 100 then some ("Alice", [("Alice", ("1.1.1.1", 100))])
        else some ("Alice", aerase [("Alice", ("1.1.1.1", 100))] "Alice")) :=
  ⟨rfl, rfl,
    resolveGo_reserved_step [] [("Alice", ("1.1.1.1", 100))] 0 none "1.1.1.1" "Alice" 2 1
      "Alice" "1.1.1.1" 100 rfl rfl⟩

/-- C3 counterexample. First input: empty client IP, unexpired reservation
for 1.1.1.1 — the claim says the candidate is skipped; the code returns it
(reservation kept). Second input: client IP equal to the reserved IP — the
claim says the reservation is dropped before returning; the code returns the
candidate with the reservation still present. -/
theorem resolveNick_reserved_cex :
    resolveNick [] [("Alice", ("1.1.1.1", 100))] 0 none "" "Alice"
        = some ("Alice", [("Alice", ("1.1.1.1", 100))]) ∧
      resolveNick [] [("Alice", ("1.1.1.1", 100))] 0 none "1.1.1.1" "Alice"
        = some ("Alice", [("Alice", ("1.1.1.1", 100))]) := by
  exact ⟨by decide, by decide⟩

/-! ### Claims C6, C7, C8, C10 -/

theorem chain_append_split {α : Type} {R : α → α → Prop} :
    ∀ (l1 l2 : List α) (a : α), List.Chain R a (l1 ++ l2) →
      List.Chain R a l1 ∧ List.Chain R (l1.getLastD a) l2 := by
  intro l1
  induction l1 with
  | nil => intro l2 a h; exact ⟨List.Chain.nil, by simpa using h⟩
  | cons x t ih =>
    intro l2 a h
    rw [List.cons_append, List.chain_cons] at h
    obtain ⟨hax, h2⟩ := h
    obtain ⟨hc1, hc2⟩ := ih l2 x h2
    exact ⟨List.chain_cons.2 ⟨hax, hc1⟩, by rw [List.getLastD_cons]; exact hc2⟩

/-- C6: for every sequence of `consume()` calls on a bucket initialized with
rate `r` and burst `bu` (tokens start at `bu`), split as earlier calls `pre`
and calls `win` confined to a time window of length `w`: the number of calls
in `win` that return true is at most `bu + r·w`, and the `tokens` field stays
in `[0, bu]` — each true call spends one whole token, refilled at rate `r`. -/
theorem tokenBucket_window_bound (r bu t0 w : ℚ) (pre win : List ℚ)
    (hr : 0 ≤ r) (hb : 0 ≤ bu) (hw0 : 0 ≤ w)
    (hchain : List.Chain (· ≤ ·) t0 (pre ++ win))
    (hwin : win.getLastD (pre.getLastD t0) - win.headD (pre.getLastD t0) ≤ w) :
    ((((TokenBucket.mk r bu bu t0).simulate pre).1.simulate win).2 : ℚ) ≤ bu + r * w ∧
      0 ≤ (((TokenBucket.mk r bu bu t0).simulate pre).1.simulate win).1.tokens ∧
      (((TokenBucket.mk r bu bu t0).simulate pre).1.simulate win).1.tokens ≤ bu := by
  obtain ⟨hcpre, hcwin⟩ := chain_append_split pre win t0 hchain
  have hfld := (TokenBucket.mk r bu bu t0).simulate_fields pre
  set b1 := ((TokenBucket.mk r bu bu t0).simulate pre).1 with hb1
  have hrate : b1.rate = r := hfld.1
  have hburst : b1.burst = bu := hfld.2.1
  have hlast : b1.last = pre.getLastD t0 := hfld.2.2
  have hbnd := (TokenBucket.mk r bu bu t0).simulate_bounds pre hr hb hb (le_refl bu) hcpre
  have hwinchain : List.Chain (· ≤ ·) b1.last win := by rw [hlast]; exact hcwin
  have hwin' : win.getLastD b1.last - win.headD b1.last ≤ w := by rw [hlast]; exact hwin
  have h1 := b1.simulate_window win w (by rw [hrate]; exact hr) (by rw [hburst]; exact hb)
    hbnd.1 (by rw [hburst]; exact hbnd.2) hwinchain hw0 hwin'
  have h2 := b1.simulate_bounds win (by rw [hrate]; exact hr) (by rw [hburst]; exact hb)
    hbnd.1 (by rw [hburst]; exact hbnd.2) hwinchain
  rw [hrate, hburst] at h1
  rw [hburst] at h2
  exact ⟨h1, h2.1, h2.2⟩

/-- Witness for C6: three instantaneous calls on a fresh default bucket
(rate 5, burst 10) inside a window of length 0 are all admitted: 3 ≤ 10. -/
theorem tokenBucket_window_bound_witness :
    (((((TokenBucket.mk 5 10 10 0).simulate []).1.simulate [0, 0, 0]).2 : ℚ)
        ≤ 10 + 5 * 0) ∧
      0 ≤ ((((TokenBucket.mk 5 10 10 0).simulate []).1.simulate [0, 0, 0]).1.tokens) ∧
      ((((TokenBucket.mk 5 10 10 0).simulate []).1.simulate [0, 0, 0]).1.tokens) ≤ 10 :=
  tokenBucket_window_bound 5 10 0 0 [] [0, 0, 0] (by norm_num) (by norm_num) (le_refl 0)
    (by simp [List.chain_cons]) (by norm_num)

/-- C7: a received line whose byte length (terminating LF included) is
exactly `MAX_LINE_BYTES = 1024` passes the length check and is processed;
a line of 1025 bytes or more makes the read loop return — the sender is
disconnected — with no response sent for that line and no state change. -/
theorem readStep_line_boundary (cfg : Config) (s : ServerState) (now : ℚ) (cid : Nat)
    (raw : List Nat) :
    (raw.length = 1024 →
      readStep cfg s now cid raw = procLine cfg s now cid (stripCRLF raw)) ∧
    (1025 ≤ raw.length → readStep cfg s now cid raw = StepRes.halt s []) := by
  constructor
  · intro h
    have hne : raw ≠ [] := by
      intro he; rw [he] at h; simp at h
    rw [readStep, if_neg hne, if_neg (by rw [h]; decide)]
  · intro h
    have hne : raw ≠ [] := by
      intro he; rw [he] at h; simp at h
    rw [readStep, if_neg hne, if_pos (by show MAX_LINE_BYTES < raw.length; rw [MAX_LINE_BYTES]; omega)]

/-- Witness for C7: a 1024-byte line is processed, a 1025-byte line halts the
loop with no output. -/
theorem readStep_line_boundary_witness :
    (List.replicate 1024 10).length = 1024 ∧
      readStep {} {} 0 1 (List.replicate 1024 10)
        = procLine {} {} 0 1 (stripCRLF (List.replicate 1024 10)) ∧
      1025 ≤ (List.replicate 1025 10).length ∧
      readStep {} {} 0 1 (List.replicate 1025 10) = StepRes.halt {} [] :=
  ⟨by rw [List.length_replicate],
   (readStep_line_boundary {} {} 0 1 (List.replicate 1024 10)).1 (by rw [List.length_replicate]),
   by rw [List.length_replicate],
   (readStep_line_boundary {} {} 0 1 (List.replicate 1025 10)).2 (by rw [List.length_replicate])⟩

/-- C8: a connection from a banned IP gets exactly the line
`SYou are banned from this server.` and is closed (the read loop never
starts), with the server state unchanged: no Client is inserted in the id
map, and neither `connections_total` nor the persistent `total_connections`
is incremented. -/
theorem handleConn_banned (cfg : Config) (s : ServerState) (now : ℚ) (cid : Nat)
    (ip : String) (h : ip ∈ s.banned) :
    handleConn cfg s now cid ip = (s, [(cid, "SYou are banned from this server.")], false) := by
  rw [handleConn, if_pos h]

/-- Witness for C8. -/
theorem handleConn_banned_witness :
    "6.6.6.6" ∈ ({ banned := ["6.6.6.6"] } : ServerState).banned ∧
      handleConn {} { banned := ["6.6.6.6"] } 0 1 "6.6.6.6"
        = ({ banned := ["6.6.6.6"] }, [(1, "SYou are banned from this server.")], false) :=
  ⟨by decide, handleConn_banned {} { banned := ["6.6.6.6"] } 0 1 "6.6.6.6" (by decide)⟩

theorem length_filter_ainsert {κ β : Type} [DecidableEq κ] (l : List (κ × β)) (k : κ)
    (v v' : β) (p : κ × β → Bool) (hv : alookup l k = some v) (hp : p (k, v') = p (k, v)) :
    ((ainsert l k v').filter p).length = (l.filter p).length := by
  induction l with
  | nil => simp [alookup] at hv
  | cons q t ih =>
    obtain ⟨k0, w⟩ := q
    simp only [ainsert, alookup] at hv ⊢
    by_cases hk : k0 = k
    · subst hk
      rw [if_pos rfl] at hv ⊢
      have hw : w = v := Option.some.inj hv
      subst hw
      simp only [List.filter]
      cases hpv : p (k0, w)
      · rw [hp.trans hpv]
      · rw [hp.trans hpv]
        simp
    · rw [if_neg hk] at hv ⊢
      simp only [List.filter]
      cases hpw : p (k0, w)
      · exact ih hv
      · simp [ih hv]

/-- C10: an admin kick only messages the target, closes the target's writer
and counts the kick: the nickname map, the reservation map and the rest of
the registry entry are untouched, so the kicked session is still in the id
map, is still a broadcast recipient, and still counts as a confirmed player
in the snapshot until its own read loop runs the leave path. -/
theorem adminKick_frame (s : ServerState) (aid : Nat) (tn : String) (tid : Nat) (t : Client)
    (hn : alookup s.nicks tn = some tid) (hc : alookup s.clients tid = some t) :
    (adminKick s aid tn).1.nicks = s.nicks ∧
      (adminKick s aid tn).1.reserved = s.reserved ∧
      alookup (adminKick s aid tn).1.clients tid = some { t with writerClosed := true } ∧
      (t.nick_confirmed = true → tid ∈ bcastRecipients (adminKick s aid tn).1 none) ∧
      snapshotPlayerCount (adminKick s aid tn).1 = snapshotPlayerCount s ∧
      (adminKick s aid tn).2 = [(tid, "SYou have been kicked by an administrator."),
        (aid, "SKicked " ++ tn ++ ".")] := by
  have hget : getClientByNick s tn = some (tid, t) := by
    rw [getClientByNick, hn]
    dsimp only
    rw [hc]
    rfl
  rw [adminKick, hget]
  dsimp only
  refine ⟨rfl, rfl, ?_, ?_, ?_, rfl⟩
  · rw [alookup_ainsert, if_pos rfl]
  · intro hconf
    have hmem : (tid, { t with writerClosed := true }) ∈ ainsert s.clients tid
        { t with writerClosed := true } :=
      alookup_some_mem (by rw [alookup_ainsert, if_pos rfl])
    unfold bcastRecipients
    refine List.mem_map.2 ⟨(tid, { t with writerClosed := true }), ?_, rfl⟩
    refine List.mem_filter.2 ⟨hmem, ?_⟩
    simp [hconf]
  · unfold snapshotPlayerCount
    exact length_filter_ainsert s.clients tid t { t with writerClosed := true }
      (fun p => p.2.nick_confirmed) hc rfl

/-- A confirmed session used by the C10 witness. -/
def kickedClient : Client :=
  ⟨1, "9.9.9.9", "Alice", true, "chat", 0, 0, TokenBucket.mk 5 10 10 0, 0, false⟩

/-- The registry used by the C10 witness. -/
def kickState : ServerState :=
  { clients := [(1, kickedClient)], nicks := [("Alice", 1)] }

/-- Witness for C10. -/
theorem adminKick_frame_witness :
    alookup kickState.nicks "Alice" = some 1 ∧
      alookup kickState.clients 1 = some kickedClient ∧
      snapshotPlayerCount (adminKick kickState 2 "Alice").1 = snapshotPlayerCount kickState :=
  ⟨by decide, by decide,
    (adminKick_frame kickState 2 "Alice" 1 kickedClient (by decide) (by decide)).2.2.2.2.1⟩

/-! ### Claim C4: registration burst order -/

theorem filter_ainsert_self {β : Type} (l : List (Nat × β)) (cid : Nat) (c : β)
    (p : Nat × β → Bool) (hp : ∀ v, p (cid, v) = false) :
    (ainsert l cid c).filter p = l.filter p := by
  induction l with
  | nil => simp [ainsert, List.filter, hp]
  | cons q t ih =>
    obtain ⟨k, w⟩ := q
    simp only [ainsert]
    by_cases hk : k = cid
    · subst hk
      rw [if_pos rfl]
      simp only [List.filter, hp]
    · rw [if_neg hk]
      simp only [List.filter]
      cases hpw : p (k, w)
      · exact ih
      · rw [ih]

theorem filter_bcast_eq_others (l : List (Nat × Client)) (cid : Nat) (c' : Client) :
    (ainsert l cid c').filter (fun p => p.2.nick_confirmed && decide (some p.1 ≠ some cid))
      = l.filter (fun p => decide (p.1 ≠ cid) && p.2.nick_confirmed) := by
  rw [filter_ainsert_self _ _ _ _ (fun v => by simp)]
  apply List.filter_congr
  intro p hp
  cases hcf : p.2.nick_confirmed <;> by_cases hid : p.1 = cid <;> simp [hid, hcf]

theorem others_ainsert_self (l : List (Nat × Client)) (cid : Nat) (c' : Client) :
    (ainsert l cid c').filter (fun p => decide (p.1 ≠ cid) && p.2.nick_confirmed)
      = l.filter (fun p => decide (p.1 ≠ cid) && p.2.nick_confirmed) :=
  filter_ainsert_self _ _ _ _ (fun v => by simp)

/-- C4: on a session's first successful registration the emitted messages
are exactly, in this order: (1) `Y<nick>` to the new client, (2) one
`J<peer.nick> <peer.ip>` line to the new client per pre-existing confirmed
peer in registry order, (3) the bounded chat history replayed to the new
client in insertion order, (4) each non-empty (stripped) MOTD line as
`S<line>` to the new client, and finally (5) the `J<nick> <ip>` broadcast to
every other confirmed session. -/
theorem onNick_register_order (cfg : Config) (s : ServerState) (now : ℚ) (cid : Nat)
    (c : Client) (requested r : String) (res' : ResMap)
    (hc : alookup s.clients cid = some c) (hconf : c.nick_confirmed = false)
    (hres : resolveNick s.nicks s.reserved now (some cid) c.ip requested = some (r, res')) :
    (onNick cfg s now cid requested).2 =
      (cid, "Y" ++ r) ::
        ((othersOf s cid).map (fun p => (cid, "J" ++ p.2.nick ++ " " ++ p.2.ip)) ++
         s.history.map (fun m => (cid, m)) ++
         (motdLines s.motd).map (fun l => (cid, "S" ++ l)) ++
         (othersOf s cid).map (fun p => (p.1, "J" ++ r ++ " " ++ c.ip))) := by
  rw [onNick, hc]
  dsimp only
  rw [hres]
  dsimp only
  rw [hconf]
  rw [if_neg Bool.false_ne_true]
  dsimp only
  unfold othersOf bcastOut bcastRecipients
  dsimp only
  rw [filter_bcast_eq_others, others_ainsert_self, List.map_map]
  rfl

/-- Registry with one confirmed peer `Bob` and a fresh unconfirmed session 2,
built through the connection and registration handlers (C4 witness). -/
def regPeerState : ServerState :=
  (handleConn {} ((onNick {} ((handleConn {} {} 0 1 "10.0.0.1").1) 0 1 "Bob").1) 5 2
    "10.0.0.2").1

/-- The session-2 Client record inside `regPeerState`. -/
def regNewClient : Client :=
  ⟨2, "10.0.0.2", "", false, "chat", 5, 5, TokenBucket.mk 5 10 10 5, 0, false⟩

/-- Witness for C4. -/
theorem onNick_register_order_witness :
    alookup regPeerState.clients 2 = some regNewClient ∧
      regNewClient.nick_confirmed = false ∧
      resolveNick regPeerState.nicks regPeerState.reserved 5 (some 2) "10.0.0.2" "Alice"
        = some ("Alice", []) ∧
      (onNick {} regPeerState 5 2 "Alice").2 =
        (2, "Y" ++ "Alice") ::
          ((othersOf regPeerState 2).map (fun p => (2, "J" ++ p.2.nick ++ " " ++ p.2.ip)) ++
           regPeerState.history.map (fun m => (2, m)) ++
           (motdLines regPeerState.motd).map (fun l => (2, "S" ++ l)) ++
           (othersOf regPeerState 2).map (fun p => (p.1, "J" ++ "Alice" ++ " " ++ "10.0.0.2"))) :=
  ⟨by decide, by decide, by decide,
    onNick_register_order {} regPeerState 5 2 regNewClient "Alice" "Alice" []
      (by decide) (by decide) (by decide)⟩

/-! ### Claim C5: flood strikes -/

/-- One registered client `Alice` at 7.7.7.7, built through the connection
and registration handlers, with the default configuration (rate 5, burst 10,
strikes 3). -/
def floodState : ServerState :=
  (onNick {} ((handleConn {} {} 0 1 "7.7.7.7").1) 0 1 "Alice").1

/-- The raw bytes of the chat line `Mhi` plus LF. -/
def mLine : List Nat := [77, 104, 105, 10]

/-- C5 counterexample: after 11 back-to-back `M` lines the session is still
connected and carries exactly one strike — the 11th line is the first
rate-rejected line, not the third strike, so no flood disconnect happens
there and no flood message is sent. -/
theorem flood_eleventh_cex :
    (readLoopGo {} floodState 0 1 (List.replicate 11 mLine)).2.2 = false ∧
      (alookup (readLoopGo {} floodState 0 1 (List.replicate 11 mLine)).1.clients 1).map
        (fun c => c.strikes) = some 1 := by
  exact ⟨by decide, by decide⟩

/-- C5 (amended): with rate=5, burst=10 and strikes-limit=3, a confirmed
client that emits 14 `M` lines with no elapsed time has exactly 10 lines
accepted (`messages_total` ends at 10); each subsequent rate-rejected line
increments `strikes`; the 13th line — not the 11th — forms the third strike,
whereupon the server sends `SYou have been disconnected for flooding.` and
closes the session, so the run over 14 lines equals the run over 13 and the
14th line is never read; and on every rate-accepted command `strikes` is
reset to 0. -/
theorem flood_scenario :
    (readLoopGo {} floodState 0 1 (List.replicate 14 mLine)).1.metrics.messages_total = 10 ∧
      (readLoopGo {} floodState 0 1 (List.replicate 14 mLine)).2.2 = true ∧
      (readLoopGo {} floodState 0 1 (List.replicate 14 mLine)).2.1.getLast?
        = some (1, "SYou have been disconnected for flooding.") ∧
      readLoopGo {} floodState 0 1 (List.replicate 14 mLine)
        = readLoopGo {} floodState 0 1 (List.replicate 13 mLine) ∧
      (alookup (readLoopGo {} floodState 0 1 (List.replicate 14 mLine)).1.clients 1).map
        (fun c => c.strikes) = some 3 ∧
      (∀ cfg c now c', rateGate cfg c now = RateRes.pass c' → c'.strikes = 0) := by
  refine ⟨by decide, by decide, by decide, by decide, by decide, ?_⟩
  intro cfg c now c' h
  rw [rateGate] at h
  dsimp only at h
  by_cases hb : (c.bucket.consume now).2
  · rw [if_pos hb] at h
    have he := RateRes.pass.inj h
    rw [← he]
  · rw [if_neg hb] at h
    by_cases hs : cfg.strikes ≤ c.strikes + 1
    · rw [if_pos hs] at h
      cases h
    · rw [if_neg hs] at h
      cases h

/-! ### Claim C2: active/reserved disjointness -/

/-- No nickname is a key of both the active map and the reservation map. -/
def NRDisjoint (s : ServerState) : Prop :=
  ∀ k, alookup s.nicks k = none ∨ alookup s.reserved k = none

theorem resAfterAccept_lookup_ne (reserved : ResMap) (now : ℚ) (r k : String) (hk : k ≠ r) :
    alookup (resAfterAccept reserved now r) k = alookup reserved k := by
  rw [resAfterAccept]
  cases hq : alookup reserved r with
  | none => rfl
  | some pr =>
    obtain ⟨rip, e⟩ := pr
    dsimp only
    by_cases h : now < e
    · rw [if_pos h]
    · rw [if_neg h, alookup_aerase, if_neg hk]

theorem resolveNick_reserved_out (nicks : NickMap) (reserved : ResMap) (now : ℚ)
    (exclude : Option Nat) (clientIp requested r : String) (res' : ResMap)
    (h : resolveNick nicks reserved now exclude clientIp requested = some (r, res')) :
    res' = resAfterAccept reserved now r := by
  obtain ⟨m, _, _, _, h5⟩ := resolveNick_char _ _ _ _ _ _ _ _ h
  exact h5

/-- Alice joins from 9.9.9.9 (session 1). -/
def ovr1 : ServerState := (handleConn {} {} 0 1 "9.9.9.9").1
/-- Session 1 registers as Alice. -/
def ovr2 : ServerState := (onNick {} ovr1 0 1 "Alice").1
/-- Session 1 disconnects at t=10: `Alice` is reserved for 9.9.9.9 until 70. -/
def ovr3 : ServerState := (onLeave {} ovr2 10 1).1
/-- Session 2 connects from the same IP at t=20. -/
def ovr4 : ServerState := (handleConn {} ovr3 20 2 "9.9.9.9").1
/-- Session 2 registers as Bob. -/
def ovr5 : ServerState := (onNick {} ovr4 20 2 "Bob").1
/-- Session 2 renames to Alice at t=30, inside the reservation window. -/
def ovr6 : ServerState := (onNick {} ovr5 30 2 "Alice").1

/-- C2 counterexample: after connect(1), `NAlice`, leave(1) — which reserves
`Alice` for 9.9.9.9 until 70 — connect(2) from the same IP, `NBob`, and a
rename `NAlice` at t=30, the nickname `Alice` is simultaneously a key of the
active map (owner 2) and of the reservation map: the rename path never
clears an honored reservation. -/
theorem nickReserved_overlap_cex :
    alookup ovr6.nicks "Alice" = some 2 ∧
      alookup ovr6.reserved "Alice" = some ("9.9.9.9", 70) ∧
      ¬ NRDisjoint ovr6 := by
  refine ⟨by decide, by decide, ?_⟩
  intro h
  rcases h "Alice" with h1 | h1
  · exact absurd h1 (by decide)
  · exact absurd h1 (by decide)

/-- C2 (amended): the active-nick and reserved-nick key sets stay disjoint
under disconnects and first registrations; a rename also preserves
disjointness whenever the resolved nickname is not left reserved by
resolution — the one exception, shown by the counterexample, is a rename
whose resolved nickname still has a live reservation matching the client
(same IP or empty IP), which the rename handler does not clear, leaving that
one nickname in both maps. -/
theorem nick_reserved_disjoint_preserved (cfg : Config) (s : ServerState) (now : ℚ)
    (cid : Nat) (hdisj : NRDisjoint s) :
    NRDisjoint (onLeave cfg s now cid).1 ∧
      (∀ c req, alookup s.clients cid = some c → c.nick_confirmed = false →
        NRDisjoint (onNick cfg s now cid req).1) ∧
      (∀ c req r res', alookup s.clients cid = some c → c.nick_confirmed = true →
        resolveNick s.nicks s.reserved now (some cid) c.ip req = some (r, res') →
        alookup res' r = none →
        NRDisjoint (onNick cfg s now cid req).1) := by
  refine ⟨?_, ?_, ?_⟩
  · rw [onLeave]
    cases hc : alookup s.clients cid with
    | none => exact hdisj
    | some c =>
      dsimp only
      by_cases hg : (c.nick_confirmed && (alookup s.nicks c.nick).isSome) = true
      · rw [if_pos hg]
        intro k
        by_cases hk : k = c.nick
        · subst hk
          left
          by_cases hrs : 0 < cfg.nick_reserve_secs
          · rw [if_pos hrs]
            dsimp only
            rw [alookup_aerase, if_pos rfl]
          · rw [if_neg hrs]
            dsimp only
            rw [alookup_aerase, if_pos rfl]
        · have hnk : alookup (aerase s.nicks c.nick) k = alookup s.nicks k := by
            rw [alookup_aerase, if_neg hk]
          by_cases hrs : 0 < cfg.nick_reserve_secs
          · rw [if_pos hrs]
            dsimp only
            rw [hnk, alookup_ainsert, if_neg hk]
            exact hdisj k
          · rw [if_neg hrs]
            dsimp only
            rw [hnk]
            exact hdisj k
      · rw [if_neg hg]
        exact hdisj
  · intro c req hc hconf
    rw [onNick, hc]
    dsimp only
    cases hres : resolveNick s.nicks s.reserved now (some cid) c.ip req with
    | none => exact hdisj
    | some pr =>
      obtain ⟨r, res'⟩ := pr
      dsimp only
      rw [hconf, if_neg Bool.false_ne_true]
      dsimp only
      intro k
      by_cases hk : k = r
      · subst hk
        right
        rw [alookup_aerase, if_pos rfl]
      · rw [alookup_ainsert, if_neg hk, alookup_aerase, if_neg hk,
          resolveNick_reserved_out s.nicks s.reserved now (some cid) c.ip req r res' hres,
          resAfterAccept_lookup_ne s.reserved now r k hk]
        exact hdisj k
  · intro c req r res' hc hconf hres hre
    rw [onNick, hc]
    dsimp only
    rw [hres]
    dsimp only
    rw [hconf, if_pos rfl]
    by_cases hr : r = c.nick
    · rw [if_pos hr]
      intro k
      by_cases hk : k = r
      · subst hk
        right
        exact hre
      · rw [resolveNick_reserved_out s.nicks s.reserved now (some cid) c.ip req r res' hres,
          resAfterAccept_lookup_ne s.reserved now r k hk]
        exact hdisj k
    · rw [if_neg hr]
      dsimp only
      intro k
      by_cases hk : k = r
      · subst hk
        right
        exact hre
      · rw [alookup_ainsert, if_neg hk]
        by_cases hko : k = c.nick
        · subst hko
          left
          rw [alookup_aerase, if_pos rfl]
        · rw [alookup_aerase, if_neg hko,
            resolveNick_reserved_out s.nicks s.reserved now (some cid) c.ip req r res' hres,
            resAfterAccept_lookup_ne s.reserved now r k hk]
          exact hdisj k

/-- Witness for C2: the empty registry is disjoint and stays so. -/
theorem nick_reserved_disjoint_preserved_witness :
    NRDisjoint {} ∧
      (NRDisjoint (onLeave {} {} 0 1).1 ∧
        (∀ c req, alookup ({} : ServerState).clients 1 = some c → c.nick_confirmed = false →
          NRDisjoint (onNick {} {} 0 1 req).1) ∧
        (∀ c req r res', alookup ({} : ServerState).clients 1 = some c →
          c.nick_confirmed = true →
          resolveNick ({} : ServerState).nicks ({} : ServerState).reserved 0 (some 1) c.ip req
            = some (r, res') →
          alookup res' r = none →
          NRDisjoint (onNick {} {} 0 1 req).1)) :=
  ⟨fun _ => Or.inl rfl, nick_reserved_disjoint_preserved {} {} 0 1 (fun _ => Or.inl rfl)⟩

/-! ### Claim C9: repeating the same N command -/

theorem resolveNick_result_unblocked (nicks : NickMap) (reserved : ResMap) (now : ℚ)
    (exclude : Option Nat) (clientIp requested r : String) (res' : ResMap)
    (h : resolveNick nicks reserved now exclude clientIp requested = some (r, res')) :
    blockedAt nicks reserved now exclude clientIp r = false := by
  obtain ⟨m, _, h3, h4, _⟩ := resolveNick_char _ _ _ _ _ _ _ _ h
  rw [h4]
  exact h3

theorem resBlocked_resAfterAccept_self (reserved : ResMap) (now : ℚ) (ip r : String)
    (h : resBlocked reserved now ip r = false) :
    resBlocked (resAfterAccept reserved now r) now ip r = false := by
  rw [resAfterAccept]
  cases hq : alookup reserved r with
  | none => exact h
  | some pr =>
    obtain ⟨rip, e⟩ := pr
    dsimp only
    by_cases hlt : now < e
    · rw [if_pos hlt]
      exact h
    · rw [if_neg hlt, resBlocked, alookup_aerase, if_pos rfl]

theorem resAfterAccept_idem (reserved : ResMap) (now : ℚ) (r : String) :
    resAfterAccept (resAfterAccept reserved now r) now r = resAfterAccept reserved now r := by
  rcases hq : alookup reserved r with _ | ⟨rip, e⟩
  · have h1 : resAfterAccept reserved now r = reserved := by rw [resAfterAccept, hq]
    rw [h1]
    exact h1
  · by_cases hlt : now < e
    · have h1 : resAfterAccept reserved now r = reserved := by
        rw [resAfterAccept, hq]
        dsimp only
        rw [if_pos hlt]
      rw [h1]
      exact h1
    · have h1 : resAfterAccept reserved now r = aerase reserved r := by
        rw [resAfterAccept, hq]
        dsimp only
        rw [if_neg hlt]
      rw [h1, resAfterAccept, alookup_aerase, if_pos rfl]

theorem blockedAt_transfer (nicks nicks1 : NickMap) (reserved reserved1 : ResMap)
    (now : ℚ) (exclude : Option Nat) (ip cand : String)
    (hactive : ∀ o, alookup nicks cand = some o → some o ≠ exclude →
      alookup nicks1 cand = some o)
    (hres : alookup reserved1 cand = alookup reserved cand)
    (hb : blockedAt nicks reserved now exclude ip cand = true) :
    blockedAt nicks1 reserved1 now exclude ip cand = true := by
  rw [blockedAt, Bool.or_eq_true] at hb ⊢
  rcases hb with hb | hb
  · left
    rw [activeBlocked] at hb ⊢
    cases ho : alookup nicks cand with
    | none => rw [ho] at hb; cases hb
    | some o =>
      rw [ho] at hb
      rw [decide_eq_true_eq] at hb
      rw [hactive o ho hb]
      exact decide_eq_true hb
  · right
    rw [resBlocked, hres]
    rw [resBlocked] at hb
    exact hb

theorem activeBlocked_excl_self (nicks1 : NickMap) (cid : Nat) (r : String)
    (h : alookup nicks1 r = some cid) :
    activeBlocked nicks1 (some cid) r = false := by
  rw [activeBlocked, h]
  simp

/-- `e` counts as a Y reply to session `cid` when it is addressed to `cid`
and its line starts with the `Y` prefix byte. -/
def isYReplyTo (cid : Nat) (e : Nat × String) : Bool :=
  decide (e.1 = cid) && decide (e.2.data.head? = some 'Y')

def ycount (cid : Nat) (out : Out) : Nat := out.countP (isYReplyTo cid)

theorem ydata_head (t : String) : ("Y" ++ t).data.head? = some 'Y' := rfl

theorem countP_y_zero_of (cid : Nat) (l : Out) (h : ∀ e ∈ l, e.2.data.head? ≠ some 'Y') :
    l.countP (isYReplyTo cid) = 0 := by
  rw [List.countP_eq_zero]
  intro a ha hpa
  rw [isYReplyTo, Bool.and_eq_true] at hpa
  exact h a ha (of_decide_eq_true hpa.2)

theorem ycount_bcast (cid : Nat) (s : ServerState) (msg : String) (ex : Option Nat)
    (h : msg.data.head? ≠ some 'Y') : (bcastOut s msg ex).countP (isYReplyTo cid) = 0 := by
  apply countP_y_zero_of
  intro e he
  rw [bcastOut] at he
  obtain ⟨i, _, hei⟩ := List.mem_map.1 he
  rw [← hei]
  exact h

theorem jdata_head (a b : String) : ("J" ++ a ++ " " ++ b).data.head? = some 'J' := rfl

theorem sdata_head (t : String) : ("S" ++ t).data.head? = some 'S' := rfl

theorem ndata_head (a b : String) : ("N" ++ a ++ " " ++ b).data.head? = some 'N' := rfl

/-- Unfolding of `_on_nick` on a rename to the current nickname: only the
loop's in-place reservation mutation survives, nothing is sent. -/
theorem onNick_eq_noop (cfg : Config) (s : ServerState) (now : ℚ) (cid : Nat) (c : Client)
    (x r : String) (res' : ResMap)
    (hc : alookup s.clients cid = some c)
    (hres : resolveNick s.nicks s.reserved now (some cid) c.ip x = some (r, res'))
    (hcf : c.nick_confirmed = true) (hr : r = c.nick) :
    onNick cfg s now cid x = ({ s with reserved := res' }, []) := by
  rw [onNick, hc]
  dsimp only
  rw [hres]
  dsimp only
  rw [hcf, if_pos rfl, if_pos hr]

/-- The registry after a rename of session `cid` to `r` (resolution output
`res'`). -/
def renameState (s : ServerState) (cid : Nat) (c : Client) (r : String) (res' : ResMap) :
    ServerState :=
  { s with
    reserved := res',
    nicks := ainsert (aerase s.nicks c.nick) r cid,
    clients := ainsert s.clients cid { c with nick := r } }

/-- The registry after a first registration of session `cid` as `r`. -/
def registerState (cfg : Config) (s : ServerState) (now : ℚ) (cid : Nat) (c : Client)
    (r : String) (res' : ResMap) : ServerState :=
  { s with
    reserved := aerase res' r,
    nicks := ainsert s.nicks r cid,
    clients := ainsert s.clients cid { c with nick := r, nick_confirmed := true },
    stats := bumpPlayerStat cfg s.stats now r "connect_count" }

/-- Unfolding of `_on_nick` on a rename to a different nickname. -/
theorem onNick_eq_rename (cfg : Config) (s : ServerState) (now : ℚ) (cid : Nat) (c : Client)
    (x r : String) (res' : ResMap)
    (hc : alookup s.clients cid = some c)
    (hres : resolveNick s.nicks s.reserved now (some cid) c.ip x = some (r, res'))
    (hcf : c.nick_confirmed = true) (hr : ¬ r = c.nick) :
    onNick cfg s now cid x =
      (renameState s cid c r res',
        (cid, "Y" ++ r) ::
          bcastOut (renameState s cid c r res') ("N" ++ c.nick ++ " " ++ r) none) := by
  rw [onNick, hc]
  dsimp only
  rw [hres]
  dsimp only
  rw [if_pos hcf, if_neg hr]
  rfl

/-- Unfolding of `_on_nick` on a first registration. -/
theorem onNick_eq_register (cfg : Config) (s : ServerState) (now : ℚ) (cid : Nat) (c : Client)
    (x r : String) (res' : ResMap)
    (hc : alookup s.clients cid = some c)
    (hres : resolveNick s.nicks s.reserved now (some cid) c.ip x = some (r, res'))
    (hcf : c.nick_confirmed = false) :
    onNick cfg s now cid x =
      (registerState cfg s now cid c r res',
        (cid, "Y" ++ r) ::
          ((othersOf (registerState cfg s now cid c r res') cid).map
            (fun p => (cid, "J" ++ p.2.nick ++ " " ++ p.2.ip)) ++
           s.history.map (fun m => (cid, m)) ++
           (motdLines s.motd).map (fun l => (cid, "S" ++ l)) ++
           bcastOut (registerState cfg s now cid c r res')
             ("J" ++ r ++ " " ++ c.ip) (some cid))) := by
  rw [onNick, hc]
  dsimp only
  rw [hres]
  dsimp only
  rw [if_neg (by rw [hcf]; exact Bool.false_ne_true : ¬ c.nick_confirmed = true)]
  rfl

/-- C9 (amended): for a session with a well-formed registry entry, sending
`N<x>` a second time right after a first `N<x>` (same clock reading,
registry otherwise untouched) produces no output at all on the second call —
in particular no second `Y` reply and no `N<old> <new>` broadcast — and
leaves the whole state, nickname maps and the session's nick included,
unchanged. Across both calls there is at most one Y reply to the sender:
exactly one when the session was unconfirmed at the first call, and zero
when it was already confirmed under the nickname the request resolves to
(the original "exactly one Y in total" fails there, see the
counterexample). -/
theorem onNick_repeat_noop (cfg : Config) (s : ServerState) (now : ℚ) (cid : Nat)
    (c : Client) (x : String)
    (hc : alookup s.clients cid = some c)
    (hown : c.nick_confirmed = true → alookup s.nicks c.nick = some cid)
    (hhist : ∀ m ∈ s.history, m.data.head? ≠ some 'Y') :
    onNick cfg (onNick cfg s now cid x).1 now cid x = ((onNick cfg s now cid x).1, []) ∧
      ycount cid (onNick cfg s now cid x).2 ≤ 1 ∧
      (c.nick_confirmed = false → ycount cid (onNick cfg s now cid x).2 = 1) := by
  obtain ⟨⟨r, res'⟩, hres⟩ := Option.isSome_iff_exists.1
    (resolveNick_isSome s.nicks s.reserved now (some cid) c.ip x)
  have hout : res' = resAfterAccept s.reserved now r :=
    resolveNick_reserved_out _ _ _ _ _ _ _ _ hres
  have hub : blockedAt s.nicks s.reserved now (some cid) c.ip r = false :=
    resolveNick_result_unblocked _ _ _ _ _ _ _ _ hres
  rw [blockedAt, Bool.or_eq_false_iff] at hub
  obtain ⟨ha0, hr0⟩ := hub
  by_cases hcf : c.nick_confirmed = true
  · by_cases hrn : r = c.nick
    · have e1 : onNick cfg s now cid x = ({ s with reserved := res' }, []) :=
        onNick_eq_noop cfg s now cid c x r res' hc hres hcf hrn
      rw [e1]
      refine ⟨?_, ?_, ?_⟩
      · have hres2 : resolveNick s.nicks res' now (some cid) c.ip x = some (r, res') := by
          apply resolveNick_agree s.nicks s.nicks s.reserved res' now (some cid) c.ip x r
            res' hres
          · intro cand hne hb
            apply blockedAt_transfer s.nicks s.nicks s.reserved res' now (some cid) c.ip cand
              (fun o ho _ => ho) ?_ hb
            rw [hout]
            exact resAfterAccept_lookup_ne s.reserved now r cand hne
          · rw [blockedAt]
            refine Bool.or_eq_false_iff.2 ⟨ha0, ?_⟩
            rw [hout]
            exact resBlocked_resAfterAccept_self _ _ _ _ hr0
          · rw [hout]
            exact resAfterAccept_idem _ _ _
        exact onNick_eq_noop cfg { s with reserved := res' } now cid c x r res' hc hres2
          hcf hrn
      · rw [ycount]
        simp
      · intro hfalse
        rw [hcf] at hfalse
        cases hfalse
    · have e1 := onNick_eq_rename cfg s now cid c x r res' hc hres hcf hrn
      rw [e1]
      have hc1 : alookup (renameState s cid c r res').clients cid
          = some { c with nick := r } := by
        rw [renameState]
        dsimp only
        rw [alookup_ainsert, if_pos rfl]
      refine ⟨?_, ?_, ?_⟩
      · have hres2 : resolveNick (ainsert (aerase s.nicks c.nick) r cid) res' now
            (some cid) c.ip x = some (r, res') := by
          apply resolveNick_agree s.nicks (ainsert (aerase s.nicks c.nick) r cid)
            s.reserved res' now (some cid) c.ip x r res' hres
          · intro cand hne hb
            apply blockedAt_transfer s.nicks (ainsert (aerase s.nicks c.nick) r cid)
              s.reserved res' now (some cid) c.ip cand ?_ ?_ hb
            · intro o ho hoex
              have hco : cand ≠ c.nick := by
                intro hcand
                rw [hcand, hown hcf] at ho
                have : o = cid := (Option.some.inj ho).symm
                exact hoex (by rw [this])
              rw [alookup_ainsert, if_neg hne, alookup_aerase, if_neg hco]
              exact ho
            · rw [hout]
              exact resAfterAccept_lookup_ne s.reserved now r cand hne
          · rw [blockedAt]
            refine Bool.or_eq_false_iff.2 ⟨?_, ?_⟩
            · exact activeBlocked_excl_self _ cid r (by rw [alookup_ainsert, if_pos rfl])
            · rw [hout]
              exact resBlocked_resAfterAccept_self _ _ _ _ hr0
          · rw [hout]
            exact resAfterAccept_idem _ _ _
        exact onNick_eq_noop cfg (renameState s cid c r res') now cid { c with nick := r }
          x r res' hc1 hres2 hcf rfl
      · rw [ycount, List.countP_cons]
        have hz : (bcastOut (renameState s cid c r res') ("N" ++ c.nick ++ " " ++ r)
            none).countP (isYReplyTo cid) = 0 :=
          ycount_bcast cid _ _ none (by rw [ndata_head]; decide)
        rw [hz]
        have hp : isYReplyTo cid (cid, "Y" ++ r) = true := by
          rw [isYReplyTo]
          simp [ydata_head]
        rw [hp]
        simp
      · intro hfalse
        rw [hcf] at hfalse
        cases hfalse
  · have hcff : c.nick_confirmed = false := by rwa [Bool.not_eq_true] at hcf
    have e1 := onNick_eq_register cfg s now cid c x r res' hc hres hcff
    rw [e1]
    have hc1 : alookup (registerState cfg s now cid c r res').clients cid
        = some { c with nick := r, nick_confirmed := true } := by
      rw [registerState]
      dsimp only
      rw [alookup_ainsert, if_pos rfl]
    have hy : ((cid, "Y" ++ r) ::
        ((othersOf (registerState cfg s now cid c r res') cid).map
          (fun p => (cid, "J" ++ p.2.nick ++ " " ++ p.2.ip)) ++
         s.history.map (fun m => (cid, m)) ++
         (motdLines s.motd).map (fun l => (cid, "S" ++ l)) ++
         bcastOut (registerState cfg s now cid c r res')
           ("J" ++ r ++ " " ++ c.ip) (some cid))).countP (isYReplyTo cid) = 1 := by
      rw [List.countP_cons, List.countP_append, List.countP_append, List.countP_append]
      have hA : ((othersOf (registerState cfg s now cid c r res') cid).map
          (fun p => (cid, "J" ++ p.2.nick ++ " " ++ p.2.ip))).countP (isYReplyTo cid) = 0 := by
        apply countP_y_zero_of
        intro e he
        obtain ⟨p, _, hep⟩ := List.mem_map.1 he
        rw [← hep]
        rw [jdata_head]
        decide
      have hB : (s.history.map (fun m => (cid, m))).countP (isYReplyTo cid) = 0 := by
        apply countP_y_zero_of
        intro e he
        obtain ⟨m, hm, hem⟩ := List.mem_map.1 he
        rw [← hem]
        exact hhist m hm
      have hC : ((motdLines s.motd).map (fun l => (cid, "S" ++ l))).countP
          (isYReplyTo cid) = 0 := by
        apply countP_y_zero_of
        intro e he
        obtain ⟨l, _, hel⟩ := List.mem_map.1 he
        rw [← hel]
        rw [sdata_head]
        decide
      have hD : (bcastOut (registerState cfg s now cid c r res')
          ("J" ++ r ++ " " ++ c.ip) (some cid)).countP (isYReplyTo cid) = 0 :=
        ycount_bcast cid _ _ (some cid) (by rw [jdata_head]; decide)
      rw [hA, hB, hC, hD]
      have hp : isYReplyTo cid (cid, "Y" ++ r) = true := by
        rw [isYReplyTo]
        simp [ydata_head]
      rw [hp]
      simp
    refine ⟨?_, ?_, ?_⟩
    · have hres2 : resolveNick (ainsert s.nicks r cid) (aerase res' r) now
          (some cid) c.ip x = some (r, aerase res' r) := by
        apply resolveNick_agree s.nicks (ainsert s.nicks r cid) s.reserved (aerase res' r)
          now (some cid) c.ip x r res' hres
        · intro cand hne hb
          apply blockedAt_transfer s.nicks (ainsert s.nicks r cid) s.reserved
            (aerase res' r) now (some cid) c.ip cand ?_ ?_ hb
          · intro o ho _
            rw [alookup_ainsert, if_neg hne]
            exact ho
          · rw [alookup_aerase, if_neg hne, hout]
            exact resAfterAccept_lookup_ne s.reserved now r cand hne
        · rw [blockedAt]
          refine Bool.or_eq_false_iff.2 ⟨?_, ?_⟩
          · exact activeBlocked_excl_self _ cid r (by rw [alookup_ainsert, if_pos rfl])
          · rw [resBlocked, alookup_aerase, if_pos rfl]
        · rw [resAfterAccept, alookup_aerase, if_pos rfl]
      exact onNick_eq_noop cfg (registerState cfg s now cid c r res') now cid
        { c with nick := r, nick_confirmed := true } x r (aerase res' r) hc1 hres2 rfl rfl
    · rw [ycount, hy]
    · intro _
      rw [ycount, hy]

/-- C9 counterexample: a session already confirmed as `Alice` sends `NAlice`
twice; the first call is itself a no-op (the code returns before any send),
so the two calls together produce zero Y replies, not exactly one. -/
theorem onNick_twice_zero_y_cex :
    ycount 1 (onNick {} floodState 0 1 "Alice").2 +
      ycount 1 (onNick {} ((onNick {} floodState 0 1 "Alice").1) 0 1 "Alice").2 = 0 := by
  decide

/-- The Client record of session 1 inside `floodState`. -/
def cAlice : Client :=
  ⟨1, "7.7.7.7", "Alice", true, "chat", 0, 0, TokenBucket.mk 5 10 10 0, 0, false⟩

/-- Witness for C9. -/
theorem onNick_repeat_noop_witness :
    alookup floodState.clients 1 = some cAlice ∧
      (onNick {} (onNick {} floodState 0 1 "Alice").1 0 1 "Alice"
          = ((onNick {} floodState 0 1 "Alice").1, []) ∧
        ycount 1 (onNick {} floodState 0 1 "Alice").2 ≤ 1 ∧
        (cAlice.nick_confirmed = false → ycount 1 (onNick {} floodState 0 1 "Alice").2 = 1)) :=
  ⟨by decide,
    onNick_repeat_noop {} floodState 0 1 cAlice "Alice" (by decide) (fun _ => by decide)
      (by
        have hh : floodState.history = [] := by decide
        rw [hh]
        intro m hm
        exact absurd hm (List.not_mem_nil m))⟩
